import Mathlib

/- Formal model of the DirectBridge robot/UI bridge (src/back/direct_bridge.py),
   a shallow embedding of the data structures and operations that the spec's
   claims are about.  Python dicts are modelled as insertion-ordered association
   lists, Python floats as exact rationals, and the trigonometric library
   functions as explicit function parameters. -/

namespace DirectBridge

/-- Python dict lookup d.get(k): the first entry with the given key. -/
def dget {K V : Type} [BEq K] (d : List (K × V)) (k : K) : Option V :=
  (d.find? (fun p => p.1 == k)).map (fun p => p.2)

/-- Python dict assignment d[k] = v: replaces the entry in place when the key is
present (dicts keep insertion order), otherwise appends a new entry at the end. -/
def dinsert {K V : Type} [BEq K] (d : List (K × V)) (k : K) (v : V) : List (K × V) :=
  if (d.find? (fun p => p.1 == k)).isSome then
    d.map (fun p => if p.1 == k then (k, v) else p)
  else d ++ [(k, v)]

/-- Python del d[k]. -/
def derase {K V : Type} [BEq K] (d : List (K × V)) (k : K) : List (K × V) :=
  d.filter (fun p => !(p.1 == k))

/-- Python `k in d` on a dict. -/
def hasKey {K V : Type} [BEq K] (d : List (K × V)) (k : K) : Bool :=
  (d.find? (fun p => p.1 == k)).isSome

/- ===================== Python string primitives =========================
   Lean's own String.splitOn / trim / replace are defined by well-founded
   recursion and do not reduce inside the kernel, so the Python string methods
   are modelled here by structurally recursive functions on the character
   list. -/

/-- Python str.split(sep) for a one-character separator. -/
def splitChar (sep : Char) : List Char → List (List Char)
  | [] => [[]]
  | c :: rest =>
    match splitChar sep rest with
    | [] => [[c]]
    | h :: t => if c = sep then [] :: h :: t else (c :: h) :: t

/-- Python str.replace(pat, repl), fuelled so that it is structurally
recursive; with fuel = length of the input it computes the full replacement. -/
def replaceAux (pat repl : List Char) : Nat → List Char → List Char
  | _, [] => []
  | 0, l => l
  | Nat.succ fuel, c :: rest =>
    if !pat.isEmpty && pat.isPrefixOf (c :: rest) then
      repl ++ replaceAux pat repl fuel ((c :: rest).drop pat.length)
    else c :: replaceAux pat repl fuel rest

/-- Python str.strip(): drop leading and trailing whitespace. -/
def pyStripChars (l : List Char) : List Char :=
  ((l.dropWhile Char.isWhitespace).reverse.dropWhile Char.isWhitespace).reverse

/-- Python str.strip() on a String. -/
def pyStrip (s : String) : String := ⟨pyStripChars s.data⟩

/-- Python str.split(sep) on a String, one-character separator. -/
def pySplit (sep : Char) (s : String) : List String :=
  (splitChar sep s.data).map (fun l => ⟨l⟩)

/-- Python str.replace(pat, repl) on a String. -/
def pyReplace (s pat repl : String) : String :=
  ⟨replaceAux pat.data repl.data s.data.length s.data⟩

/-- Python str.startswith(pre). -/
def pyStartsWith (s pre : String) : Bool := pre.data.isPrefixOf s.data

/-- Parse a nonempty all-digit character list as a Nat. -/
def pyDigits? (l : List Char) : Option Nat :=
  match l with
  | [] => none
  | _ =>
    l.foldl (fun acc c =>
      match acc with
      | none => none
      | some n => if c.isDigit then some (n * 10 + (c.toNat - 48)) else none) (some 0)

/- ===================== PID config file (load_pid_config_from_file) ====== -/

/-- Python int() restricted to the optionally signed decimal strings that occur
in PID config motor-id fields; any other string raises ValueError (None here). -/
def pyInt? (s : String) : Option Int :=
  let l := (pyStrip s).data
  match l with
  | '-' :: rest => (pyDigits? rest).map (fun n => -(n : Int))
  | '+' :: rest => (pyDigits? rest).map (fun n => (n : Int))
  | _ => (pyDigits? l).map (fun n => (n : Int))

/-- Helper for pyFloat?: an unsigned decimal literal "digits", "digits.digits",
"digits." or ".digits". -/
def pyFloatNonneg? (l : List Char) : Option ℚ :=
  match splitChar '.' l with
  | [a] => (pyDigits? a).map (fun n => (n : ℚ))
  | [a, b] =>
    if a.isEmpty && b.isEmpty then none
    else
      match (if a.isEmpty then some 0 else pyDigits? a),
          (if b.isEmpty then some 0 else pyDigits? b) with
      | some x, some y => some ((x : ℚ) + (y : ℚ) / (10 : ℚ) ^ b.length)
      | _, _ => none
  | _ => none

/-- Python float() restricted to plain signed decimal literals (the fragment the
PID config records use); anything else raises ValueError (None here). -/
def pyFloat? (s : String) : Option ℚ :=
  match (pyStrip s).data with
  | '-' :: rest => (pyFloatNonneg? rest).map Neg.neg
  | '+' :: rest => pyFloatNonneg? rest
  | l => pyFloatNonneg? l

/-- One motor's PID gains, the value stored in pid_data_per_motor. -/
structure PidVals where
  kp : ℚ
  ki : ℚ
  kd : ℚ
deriving DecidableEq, Repr

/-- One iteration of the line loop of DirectBridge.load_pid_config_from_file
(src/back/direct_bridge.py lines 595-610): strip the line, skip blanks and
'#' comments, split on ',', require exactly 4 fields, strip a "Motor" prefix
from the id field, parse; on any parse failure the line is skipped with a
warning and the accumulated dict is unchanged. -/
def loadPidLine (acc : List (Int × PidVals)) (rawLine : String) : List (Int × PidVals) :=
  let line := pyStrip rawLine
  if line = "" || pyStartsWith line "#" then acc
  else
    let parts := pySplit ',' line
    if parts.length = 4 then
      let motorIdStr := pyStrip (pyReplace (parts.get! 0) "Motor" "")
      match pyInt? motorIdStr, pyFloat? (parts.get! 1), pyFloat? (parts.get! 2),
          pyFloat? (parts.get! 3) with
      | some mid, some kp, some ki, some kd => dinsert acc mid ⟨kp, ki, kd⟩
      | _, _, _, _ => acc
    else acc

/-- The cache-loading path of DirectBridge.load_pid_config_from_file: fold the
line loop over the file's lines, starting from an empty dict. -/
def load_pid_config_from_file (lines : List String) : List (Int × PidVals) :=
  lines.foldl loadPidLine []

/-- DirectBridge.save_pid_config_to_file (lines 661-668): writes one line
"Motor<n>:<kp>,<ki>,<kd>" per motor.  The rendering of a Python float into its
str() form is passed in as a parameter. -/
def save_pid_config_to_file (render : ℚ → String) (pid : List (Int × PidVals)) : List String :=
  pid.map (fun p =>
    "Motor" ++ toString p.1 ++ ":" ++ render p.2.kp ++ "," ++ render p.2.ki ++ ","
      ++ render p.2.kd)

/- ===================== Robot alias registry ============================= -/

/-- The global robot_alias_manager dictionaries (src/back/direct_bridge.py
lines 39-46). -/
structure AliasManager where
  ip_port_to_alias : List (String × String)
  alias_to_ip_port : List (String × String)
  ip_to_alias : List (String × String)
  alias_to_ip : List (String × String)
  next_robot_number : Nat
deriving DecidableEq, Repr

/-- Target resolution of the send_to_robot command (handle_ws_client, lines
1118-1135).  The code first tries robot_ip — through the ip_to_alias primary
index and then a scan of ip_port_to_alias for a key starting with "ip:" — and
falls back to robot_alias only when the IP did not resolve.  An absent or
empty field is modelled as none (Python truthiness). -/
def resolve_send_to_robot_target (m : AliasManager) (target_ip target_alias : Option String) :
    Option String :=
  let viaIp : Option String :=
    match target_ip with
    | some ip =>
      let viaPrimary : Option String :=
        match dget m.ip_to_alias ip with
        | some found_alias => dget m.alias_to_ip_port found_alias
        | none => none
      match viaPrimary with
      | some k => some k
      | none =>
        (m.ip_port_to_alias.find? (fun p => pyStartsWith p.1 (ip ++ ":"))).map (fun p => p.1)
    | none => none
  match viaIp with
  | some k => some k
  | none =>
    match target_alias with
    | some a => dget m.alias_to_ip_port a
    | none => none

/-- The send_to_robot relay: resolve the target, then look the unique key up in
ConnectionManager's TCP client table (tcpKeys); the command is written to that
robot's writer.  Returns the unique key of the robot actually written to, or
none when the command is answered with a command_response error instead. -/
def send_to_robot_relay (m : AliasManager) (tcpKeys : List String)
    (target_ip target_alias : Option String) : Option String :=
  match resolve_send_to_robot_target m target_ip target_alias with
  | some k => if k ∈ tcpKeys then some k else none
  | none => none

/- ===================== request_trajectory (handle_ws_client) ============ -/

/-- The attributes that class TrajectoryCalculator actually defines: the
instance attribute set in its constructor plus its methods (lines 73-231).
Neither max_points nor get_trajectory is among them. -/
def trajectoryCalculatorAttrs : List String :=
  ["robot_data", "_ensure_robot_data", "update_imu_data", "_rpm_to_omega",
   "update_encoder_data", "_try_calculate_trajectory"]

/-- Replies the request_trajectory branch can produce on the WebSocket. -/
inductive TrajReply where
  | trajectory_data (als ip : String)
  | errorReply (msg : String)
  | serverError (msg : String)
deriving DecidableEq, Repr

/-- The request_trajectory branch of handle_ws_client (lines 1342-1370).
Python evaluates the default argument of payload.get("limit",
self.trajectory_calculator.max_points) before the call, so the attribute
access runs even when the payload carries a limit; an AttributeError is
caught by the message loop's generic handler, which replies with a
type:"error" Server-error envelope (lines 1583-1588). -/
def handle_request_trajectory (m : AliasManager) (_hasLimit : Bool)
    (target_ip target_alias : Option String) : TrajReply :=
  if !(trajectoryCalculatorAttrs.contains "max_points") then
    .serverError "Server error: AttributeError: TrajectoryCalculator has no attribute max_points"
  else
    let uk : Option String :=
      match target_alias with
      | some a => dget m.alias_to_ip_port a
      | none =>
        match target_ip with
        | some ip =>
          match dget m.ip_to_alias ip with
          | some a => dget m.alias_to_ip_port a
          | none => none
        | none => none
    match uk with
    | some k =>
      if !(trajectoryCalculatorAttrs.contains "get_trajectory") then
        .serverError
          "Server error: AttributeError: TrajectoryCalculator has no attribute get_trajectory"
      else
        .trajectory_data ((dget m.ip_port_to_alias k).getD "") ((pySplit ':' k).headD "")
    | none => .errorReply "Robot not found for trajectory request."

/- ===================== OTA server (OTAConnection) ======================= -/

/-- The OTA arm: OTAConnection.firmware_to_send_path and
ota_server_robot_ip_target (lines 348-362). -/
structure OtaArmState where
  firmware_to_send_path : Option String
  ota_server_robot_ip_target : Option String
deriving DecidableEq, Repr

/-- Outcome of the chunked file streaming inside one OTA connection: either it
completes, or an exception interrupts it after some bytes were written. -/
inductive OtaTransfer where
  | ok
  | ioError (bytesSent : Nat)
deriving DecidableEq, Repr

/-- OTAConnection.handle_ota_robot_connection (lines 364-431), sequentially:
given the arm, the staged files (path to size), the peer IP and the I/O
outcome, returns the firmware bytes the peer received, the new arm, and the
remaining files.  Streaming happens only when a firmware path is armed and its
target equals the peer IP; on success the arm is cleared and the temp file
deleted, on an I/O error the arm is also cleared (lines 412-420) and the file
kept; otherwise nothing is sent. -/
def handle_ota_robot_connection (st : OtaArmState) (files : List (String × Nat))
    (peer : String) (tr : OtaTransfer) : Nat × OtaArmState × List (String × Nat) :=
  match st.firmware_to_send_path with
  | some p =>
    if st.ota_server_robot_ip_target = some peer then
      match tr with
      | .ok => ((dget files p).getD 0, ⟨none, none⟩, derase files p)
      | .ioError sent => (sent, ⟨none, none⟩, files)
    else (0, st, files)
  | none => (0, st, files)

/-- Total firmware bytes handed out over a sequence of OTA accepts. -/
def runOtaAccepts (st : OtaArmState) (files : List (String × Nat)) :
    List (String × OtaTransfer) → Nat
  | [] => 0
  | (peer, tr) :: rest =>
    let r := handle_ota_robot_connection st files peer tr
    r.1 + runOtaAccepts r.2.1 r.2.2 rest

/- ===================== Firmware upload staging ========================== -/

/-- One in-progress upload: FirmwareUploadManager._uploads[robot_ip]
(lines 503-511); the open file handle is implicit in the entry's presence. -/
structure UploadInfo where
  path : String
  filesize : Int
  received : Int
deriving DecidableEq, Repr

/-- FirmwareUploadManager.finish (lines 524-534): pop the upload entry, close
its file, and return the staged path iff the received byte count equals the
declared filesize.  Result: (returned path, remaining uploads, whether a file
handle was closed). -/
def fw_finish (uploads : List (String × UploadInfo)) (robot_ip : String) :
    Option String × List (String × UploadInfo) × Bool :=
  match dget uploads robot_ip with
  | none => (none, uploads, false)
  | some inf =>
    let rest := derase uploads robot_ip
    if inf.received ≠ inf.filesize then (none, rest, true)
    else (some inf.path, rest, true)

/-- OTAConnection.prepare_firmware_for_send (lines 355-362): arms the OTA
server iff the staged file exists; otherwise the arm is left unchanged. -/
def prepare_firmware_for_send (arm : OtaArmState) (fileExists : Bool)
    (file_path target_robot_ip : String) : OtaArmState :=
  if fileExists then ⟨some file_path, some target_robot_ip⟩ else arm

/-- Reply of the upload_firmware_end branch. -/
inductive UploadEndReply where
  | firmware_prepared_for_ota (robot_ip : String)
  | errorUploadFinish (robot_ip : String)
deriving DecidableEq, Repr

/-- The upload_firmware_end branch of handle_ws_client (lines 1536-1553):
finish the upload; if a path came back, arm the OTA server and reply
firmware_prepared_for_ota, else reply error with stage "upload_finish". -/
def handle_upload_firmware_end (uploads : List (String × UploadInfo)) (arm : OtaArmState)
    (robot_ip : String) (fileExists : Bool) :
    List (String × UploadInfo) × OtaArmState × UploadEndReply :=
  let r := fw_finish uploads robot_ip
  match r.1 with
  | some p => (r.2.1, prepare_firmware_for_send arm fileExists p robot_ip,
      .firmware_prepared_for_ota robot_ip)
  | none => (r.2.1, arm, .errorUploadFinish robot_ip)

/- ===================== Subscription map ================================= -/

/-- DirectBridge.GLOBAL_SUBSCRIPTION_KEY. -/
def GLOBAL_SUBSCRIPTION_KEY : String := "__GLOBAL__"

/-- A Python set of data-type strings, as a duplicate-free-by-use list:
set.add appends when absent, set.discard removes. -/
def setAdd (s : List String) (t : String) : List String :=
  if t ∈ s then s else s ++ [t]

/-- Python set.discard. -/
def setDiscard (s : List String) (t : String) : List String :=
  s.filter (fun x => x ≠ t)

/-- One client's subscriptions: entity key (robot alias or the GLOBAL
sentinel) mapped to its set of data types. -/
abbrev ClientSubs := List (String × List String)

/-- DirectBridge.websocket_subscriptions: client address to its ClientSubs. -/
abbrev SubMap := List (String × ClientSubs)

/-- The mutation performed by the subscribe branch of handle_ws_client
(lines 1232-1237) once the alias check has passed: ensure the client entry,
ensure the alias entry, add the data type. -/
def subscribeMut (s : SubMap) (client alias_key data_type : String) : SubMap :=
  let s1 := if hasKey s client then s else dinsert s client []
  let m := (dget s1 client).getD []
  let m1 := if hasKey m alias_key then m else dinsert m alias_key []
  let ts := (dget m1 alias_key).getD []
  dinsert s1 client (dinsert m1 alias_key (setAdd ts data_type))

/-- The subscribe branch of handle_ws_client (lines 1208-1240): the command is
rejected (map untouched) when the alias is not registered. -/
def subscribe_cmd (mgr : AliasManager) (s : SubMap) (client als data_type : String) : SubMap :=
  match dget mgr.alias_to_ip_port als with
  | none => s
  | some _ => subscribeMut s client als data_type

/-- The unsubscribe branch of handle_ws_client (lines 1258-1270): discard the
type, delete the alias entry when its set empties, delete the client entry
when its map empties. -/
def unsubscribe_cmd (s : SubMap) (client alias_key data_type : String) : SubMap :=
  match dget s client with
  | none => s
  | some m =>
    match dget m alias_key with
    | none => s
    | some ts =>
      let ts1 := setDiscard ts data_type
      let m1 := if ts1 = [] then derase m alias_key else dinsert m alias_key ts1
      if m1 = [] then derase s client else dinsert s client m1

/- ===================== Frame broadcast (broadcast_to_subscribers) ======= -/

/-- Python `alias in subs and T in subs[alias]`. -/
def memSub (m : ClientSubs) (key data_type : String) : Bool :=
  match dget m key with
  | some ts => decide (data_type ∈ ts)
  | none => false

/-- The sends a single subscription entry produces for one frame
(broadcast_to_subscribers, lines 999-1033): skip clients whose socket is not
in the active map; send once on a specific match; send once on a GLOBAL match
only when the specific match did not already send. -/
def clientEntrySends (connected : List String) (robot_alias_source data_type client : String)
    (m : ClientSubs) : List String :=
  if client ∈ connected then
    let sent1 := memSub m robot_alias_source data_type
    let sendGlobal := !sent1 && memSub m GLOBAL_SUBSCRIPTION_KEY data_type
    (if sent1 then [client] else []) ++ (if sendGlobal then [client] else [])
  else []

/-- DirectBridge.broadcast_to_subscribers (lines 987-1044): the ordered list
of deliveries of one frame, one element per send.  The payload's type and
robot_alias fields must be present with robot_alias matching the source alias,
otherwise nothing is broadcast (line 988). -/
def broadcast_to_subscribers (subs : SubMap) (connected : List String)
    (robot_alias_source payload_type payload_alias : String) : List String :=
  if payload_alias ≠ robot_alias_source then []
  else
    (subs.map (fun ce =>
      clientEntrySends connected robot_alias_source payload_type ce.1 ce.2)).flatten

/- ===================== TrajectoryCalculator ============================= -/

/-- The IMU payload dict as the calculator reads it: optional yaw and euler
fields; `extra` records whether the dict carries any further keys, which only
matters for Python truthiness of the whole dict. -/
structure ImuMsg where
  yaw : Option ℚ
  euler : Option (List ℚ)
  extra : Bool
deriving DecidableEq, Repr

/-- Python truthiness of the IMU dict (nonempty). -/
def ImuMsg.truthy (m : ImuMsg) : Bool := m.yaw.isSome || m.euler.isSome || m.extra

/-- The encoder payload dict as the calculator reads it. -/
structure EncMsg where
  timestamp : Option ℚ
  data : Option (List ℚ)
  encoders : Option (List ℚ)
  extra : Bool
deriving DecidableEq, Repr

/-- Python truthiness of the encoder dict (nonempty). -/
def EncMsg.truthy (m : EncMsg) : Bool :=
  m.timestamp.isSome || m.data.isSome || m.encoders.isSome || m.extra

/-- One pose sample. -/
structure TrajPoint where
  x : ℚ
  y : ℚ
  theta : ℚ
deriving DecidableEq, Repr

/-- TrajectoryCalculator.robot_data[key] (lines 86-96). -/
structure RobotTrajState where
  x : ℚ
  y : ℚ
  theta : ℚ
  last_timestamp_encoder : Option ℚ
  path_history : List TrajPoint
  latest_imu_data : Option ImuMsg
  latest_encoder_data : Option EncMsg
  last_imu_timestamp : Option ℚ
  last_encoder_timestamp : Option ℚ
deriving DecidableEq, Repr

/-- The fresh per-robot state installed by _ensure_robot_data. -/
def initRobotTraj : RobotTrajState :=
  ⟨0, 0, 0, none, [], none, none, none, none⟩

/-- What _try_calculate_trajectory returns when it does not return None. -/
structure TrajResult where
  position : TrajPoint
  path : List TrajPoint
deriving DecidableEq, Repr

/-- WHEEL_RADIUS_DEFAULT = 0.0325 (line 32). -/
def WHEEL_RADIUS_DEFAULT : ℚ := 13 / 400

/-- MAX_TRAJECTORY_POINTS_DEFAULT = 1000 (line 31). -/
def MAX_TRAJECTORY_POINTS_DEFAULT : Nat := 1000

/-- TrajectoryCalculator._rpm_to_omega (lines 119-120); math.pi is the
parameter `pi`. -/
def rpm_to_omega (pi rpm : ℚ) : ℚ := rpm * (2 * pi) / 60

/-- Age of a stored arrival timestamp, as _try_calculate_trajectory computes
it: `now - ts if ts else inf`; none encodes float('inf'), which also results
when the stored timestamp is 0.0 (falsy in Python). -/
def dataAge (now : ℚ) (ts : Option ℚ) : Option ℚ :=
  match ts with
  | some t => if t = 0 then none else some (now - t)
  | none => none

/-- Whether an age (possibly infinite) exceeds the freshness limit. -/
def ageExceeds (a : Option ℚ) (limit : ℚ) : Bool :=
  match a with
  | some v => decide (v > limit)
  | none => true

/-- The heading _try_calculate_trajectory extracts from the IMU dict
(lines 172-178): yaw, else euler[2] when euler has length 3, else the pose's
current theta. -/
def imuHeading (imu : ImuMsg) (thetaFallback : ℚ) : ℚ :=
  match imu.yaw with
  | some y => y
  | none =>
    match imu.euler with
    | some e => if e.length = 3 then e.getD 2 0 else thetaFallback
    | none => thetaFallback

/-- TrajectoryCalculator._try_calculate_trajectory (lines 133-231).  math.pi,
math.cos and math.sin are the parameters pi, cosF and sinF; `now` is the
time.time() call at the top of the method.  Returns the updated per-robot
state together with the method's return value. -/
def try_calculate_trajectory (pi : ℚ) (cosF sinF : ℚ → ℚ) (now : ℚ)
    (st : RobotTrajState) : RobotTrajState × Option TrajResult :=
  let imuMissing := match st.latest_imu_data with
    | none => true
    | some m => !m.truthy
  let encMissing := match st.latest_encoder_data with
    | none => true
    | some m => !m.truthy
  if imuMissing || encMissing then
    if !imuMissing || !encMissing then
      (st, some ⟨⟨st.x, st.y, st.theta⟩, st.path_history⟩)
    else (st, none)
  else
    match st.latest_imu_data, st.latest_encoder_data with
    | some imu, some enc =>
      let imu_age := dataAge now st.last_imu_timestamp
      let encoder_age := dataAge now st.last_encoder_timestamp
      if ageExceeds imu_age 5 || ageExceeds encoder_age 5 then
        (st, some ⟨⟨st.x, st.y, st.theta⟩, st.path_history⟩)
      else
        let timestamp_encoder := enc.timestamp.getD now
        let rpms := match enc.data with
          | some l => l
          | none => enc.encoders.getD []
        if rpms.length ≠ 3 then
          (st, some ⟨⟨st.x, st.y, st.theta⟩, st.path_history⟩)
        else
          let current_heading_rad := imuHeading imu st.theta
          match st.last_timestamp_encoder with
          | none =>
            let st1 := { st with last_timestamp_encoder := some timestamp_encoder,
                                 theta := current_heading_rad }
            let current_pose : TrajPoint := ⟨st1.x, st1.y, st1.theta⟩
            let st2 := if st1.path_history.isEmpty then
                { st1 with path_history := st1.path_history ++ [current_pose] }
              else st1
            (st2, some ⟨current_pose, st2.path_history⟩)
          | some last_ts =>
            let dt := timestamp_encoder - last_ts
            if dt ≤ 0 then
              let st1 := { st with theta := current_heading_rad }
              (st1, some ⟨⟨st1.x, st1.y, st1.theta⟩, st1.path_history⟩)
            else
              let omega_m1 := rpm_to_omega pi (rpms.getD 0 0)
              let omega_m2 := rpm_to_omega pi (rpms.getD 1 0)
              let omega_m3 := rpm_to_omega pi (rpms.getD 2 0)
              let vx_robot := WHEEL_RADIUS_DEFAULT * (omega_m1 + omega_m2 + omega_m3) / 3
              let vy_robot : ℚ := 0
              let cos_h := cosF st.theta
              let sin_h := sinF st.theta
              let vx_world := vx_robot * cos_h - vy_robot * sin_h
              let vy_world := vx_robot * sin_h + vy_robot * cos_h
              let x1 := st.x + vx_world * dt
              let y1 := st.y + vy_world * dt
              let new_point : TrajPoint := ⟨x1, y1, current_heading_rad⟩
              let path2 := st.path_history ++ [new_point]
              let path3 := if path2.length > MAX_TRAJECTORY_POINTS_DEFAULT then
                  path2.drop (path2.length - MAX_TRAJECTORY_POINTS_DEFAULT)
                else path2
              ({ st with x := x1, y := y1, theta := current_heading_rad,
                         last_timestamp_encoder := some timestamp_encoder,
                         path_history := path3 },
               some ⟨new_point, path3⟩)
    | _, _ => (st, none)

/-- The per-robot map TrajectoryCalculator.robot_data. -/
abbrev TrajMap := List (String × RobotTrajState)

/-- TrajectoryCalculator._ensure_robot_data (lines 86-96). -/
def ensure_robot_data (m : TrajMap) (k : String) : TrajMap :=
  if hasKey m k then m else dinsert m k initRobotTraj

/-- TrajectoryCalculator.update_imu_data (lines 98-117); `now` is the
time.time() at its top. -/
def update_imu_data (pi : ℚ) (cosF sinF : ℚ → ℚ) (now : ℚ) (m : TrajMap)
    (k : String) (imu : ImuMsg) : TrajMap × Option TrajResult :=
  let m1 := ensure_robot_data m k
  let st := (dget m1 k).getD initRobotTraj
  let yaw : Option ℚ :=
    match imu.yaw with
    | some y => some y
    | none =>
      match imu.euler with
      | some e => if e.length = 3 then some (e.getD 2 0) else none
      | none => none
  let st1 := match yaw with
    | some y => { st with theta := y }
    | none => st
  let st2 := { st1 with latest_imu_data := some imu, last_imu_timestamp := some now }
  let r := try_calculate_trajectory pi cosF sinF now st2
  (dinsert m1 k r.1, r.2)

/-- TrajectoryCalculator.update_encoder_data (lines 122-131). -/
def update_encoder_data (pi : ℚ) (cosF sinF : ℚ → ℚ) (now : ℚ) (m : TrajMap)
    (k : String) (enc : EncMsg) : TrajMap × Option TrajResult :=
  let m1 := ensure_robot_data m k
  let st := (dget m1 k).getD initRobotTraj
  let st1 := { st with latest_encoder_data := some enc, last_encoder_timestamp := some now }
  let r := try_calculate_trajectory pi cosF sinF now st1
  (dinsert m1 k r.1, r.2)

/-- One call into the calculator, for stating properties of arbitrary
sequences of updates. -/
inductive TrajOp where
  | imu (k : String) (now : ℚ) (d : ImuMsg)
  | enc (k : String) (now : ℚ) (d : EncMsg)

/-- Apply one update to the robot_data map, discarding the returned result. -/
def applyTrajOp (pi : ℚ) (cosF sinF : ℚ → ℚ) (m : TrajMap) : TrajOp → TrajMap
  | .imu k now d => (update_imu_data pi cosF sinF now m k d).1
  | .enc k now d => (update_encoder_data pi cosF sinF now m k d).1

/-- Run a sequence of updates against a freshly constructed calculator. -/
def runTrajOps (pi : ℚ) (cosF sinF : ℚ → ℚ) (ops : List TrajOp) : TrajMap :=
  ops.foldl (applyTrajOp pi cosF sinF) []

/- ===================== transform_robot_message ========================== -/

/-- JSON values as Python's json.loads produces them. -/
inductive JValue where
  | null
  | bool (b : Bool)
  | num (q : ℚ)
  | str (s : String)
  | arr (xs : List JValue)
  | obj (fields : List (String × JValue))

/-- A parsed JSON object / Python dict. -/
abbrev JDict := List (String × JValue)

/-- Python truthiness of a JSON value. -/
def pyTruthy : JValue → Bool
  | .null => false
  | .bool b => b
  | .num q => decide (q ≠ 0)
  | .str s => !(s = "")
  | .arr xs => !xs.isEmpty
  | .obj fs => !fs.isEmpty

/-- Truthiness of an optional dict member (missing key behaves like None). -/
def pyTruthyOpt (v : Option JValue) : Bool :=
  pyTruthy (v.getD .null)

/-- Python `a or b` over two optional dict members. -/
def pyOr (a b : Option JValue) : JValue :=
  let av := a.getD .null
  if pyTruthy av then av else b.getD .null

/-- Whether a character list occurs as a contiguous sublist. -/
def listContainsSub (needle : List Char) : List Char → Bool
  | [] => needle.isEmpty
  | c :: rest => needle.isPrefixOf (c :: rest) || listContainsSub needle rest

/-- Python substring test `needle in s`. -/
def strContains (s needle : String) : Bool :=
  listContainsSub needle.data s.data

/-- Python `needle in container` for a string needle: key test on dicts,
element test on lists, substring test on strings; a number, boolean or None
on the right raises TypeError (modelled as Except.error). -/
def pyContains (needle : String) : JValue → Except String Bool
  | .obj fs => .ok (fs.any (fun p => p.1 == needle))
  | .arr xs => .ok (xs.any (fun v =>
      match v with
      | .str t => t == needle
      | _ => false))
  | .str s => .ok (strContains s needle)
  | _ => .error "TypeError: argument is not iterable"

/-- Python `v == "s"` for an optional dict member: true iff the member is
present and is exactly that string. -/
def isStrVal (v : Option JValue) (s : String) : Bool :=
  match v with
  | some (.str t) => t == s
  | _ => false

/-- Python `"data" in m and isinstance(m["data"], dict)` on the looked-up
member. -/
def isObjMember : Option JValue → Bool
  | some (.obj _) => true
  | _ => false

/-- The object fields of a member known to be a JSON object. -/
def objMember : Option JValue → JDict
  | some (.obj d) => d
  | _ => []

/-- Python `"data" in m and isinstance(m["data"], list)` on the looked-up
member. -/
def isArrMember : Option JValue → Bool
  | some (.arr _) => true
  | _ => false

/-- An abstraction of Python str() for the f-string "generic_{original_type}";
exact only on strings and simple scalars, which is all the claims inspect. -/
def pyStr : JValue → String
  | .str s => s
  | .bool true => "True"
  | .bool false => "False"
  | .null => "None"
  | .num q => if q.den = 1 then toString q.num else toString q
  | .arr _ => "[...]"
  | .obj _ => "\x7b...\x7d"

/-- transform_robot_message (lines 1617-1682).  `now` stands for the
time.time() fallback used when the robot frame carries no timestamp.  The
function is pure except that the registration branch can raise a TypeError;
the result is the envelope dict in insertion order. -/
def transform_robot_message (now : ℚ) (m : JDict) : Except String JDict :=
  let original_type := dget m "type"
  let robot_reported_id := dget m "id"
  let base : JDict :=
    [("robot_ip", .str "PENDING_IP"),
     ("robot_alias", .str "PENDING_ALIAS"),
     ("timestamp", (dget m "timestamp").getD (.num now))]
  if isStrVal original_type "bno055" && isObjMember (dget m "data") then
    let d := objMember (dget m "data")
    let dataObj : JDict :=
      [("time", (dget d "time").getD .null),
       ("euler", (dget d "euler").getD .null),
       ("quaternion", (dget d "quaternion").getD .null)]
    let dataObj := if pyTruthyOpt robot_reported_id then
        dinsert dataObj "robot_reported_id" (robot_reported_id.getD .null)
      else dataObj
    .ok (dinsert (dinsert base "type" (.str "imu_data")) "data" (.obj dataObj))
  else if isStrVal original_type "encoder" && isArrMember (dget m "data") then
    let env := dinsert (dinsert base "type" (.str "encoder_data")) "data"
      ((dget m "data").getD .null)
    .ok (if pyTruthyOpt robot_reported_id then
        dinsert env "robot_reported_id" (robot_reported_id.getD .null)
      else env)
  else if isStrVal original_type "log" then
    let env := dinsert (dinsert (dinsert base "type" (.str "log")) "message"
      ((dget m "message").getD .null)) "level" ((dget m "level").getD (.str "debug"))
    .ok (if pyTruthyOpt robot_reported_id then
        dinsert env "robot_reported_id" (robot_reported_id.getD .null)
      else env)
  else if isStrVal original_type "registration" && hasKey m "capabilities" then
    let dataObj : JDict :=
      [("capabilities", (dget m "capabilities").getD .null),
       ("robot_reported_id", pyOr (dget m "robot_id") robot_reported_id)]
    let env := dinsert (dinsert base "type" (.str "registration")) "data" (.obj dataObj)
    if hasKey m "robot_id" then
      .ok (dinsert env "robot_reported_id_explicit" ((dget m "robot_id").getD .null))
    else if pyTruthyOpt robot_reported_id then
      match pyContains "robot_id" ((dget m "data").getD (.obj [])) with
      | .error e => .error e
      | .ok b =>
        if !b then
          .ok (dinsert env "robot_reported_id_explicit" (robot_reported_id.getD .null))
        else .ok env
    else .ok env
  else if pyTruthyOpt original_type then
    .ok (dinsert (dinsert base "type" (.str ("generic_" ++ pyStr (original_type.getD .null))))
      "data" (.obj m))
  else
    .ok (dinsert (dinsert base "type" (.str "unknown_json_data")) "data" (.obj m))

/-- Whether client c's subscriptions contain (key, data_type): the router's
match test read off the whole subscription map. -/
def memSubClient (subs : SubMap) (c key data_type : String) : Bool :=
  match dget subs c with
  | some m => memSub m key data_type
  | none => false

/-- Sanity shape of the subscription map between commands: client keys unique,
every client entry a nonempty dict with unique alias keys, every type set
nonempty.  (The handlers delete entries as they empty; the one transient
exception is the empty client dict installed at WebSocket connect.) -/
@[reducible] def canonicalSubs (s : SubMap) : Prop :=
  (s.map Prod.fst).Nodup ∧
  ∀ p ∈ s, p.2 ≠ [] ∧ (p.2.map Prod.fst).Nodup ∧ ∀ q ∈ p.2, q.2 ≠ []

/-- The inputs on which transform_robot_message raises: a registration frame
with capabilities, no robot_id, a truthy id, and a data member that is a bare
number, boolean or null — there `"robot_id" not in message_dict.get("data",
...)` is a TypeError. -/
def registrationRaises (m : JDict) : Bool :=
  isStrVal (dget m "type") "registration" && hasKey m "capabilities" &&
  !hasKey m "robot_id" && pyTruthyOpt (dget m "id") &&
  (match (dget m "data").getD (.obj []) with
   | .null => true
   | .bool _ => true
   | .num _ => true
   | _ => false)

/-- The C5 pose-seed scenario after the IMU frame and the first encoder
frame: IMU {yaw: 0} arriving at wall-clock 1000, then encoder
{timestamp: 100, data: [60,60,60]} arriving at wall-clock 1000. -/
def poseSeedAfterFirstEncoder (pi : ℚ) (cosF sinF : ℚ → ℚ) : TrajMap :=
  let m1 := (update_imu_data pi cosF sinF 1000 [] "r" ⟨some 0, none, false⟩).1
  (update_encoder_data pi cosF sinF 1000 m1 "r"
    ⟨some 100, some [60, 60, 60], none, false⟩).1

/-- The full C5 scenario: the above followed by encoder
{timestamp: 101, data: [60,60,60]} arriving at wall-clock 1001. -/
def poseSeedScenario (pi : ℚ) (cosF sinF : ℚ → ℚ) : TrajMap :=
  (update_encoder_data pi cosF sinF 1001 (poseSeedAfterFirstEncoder pi cosF sinF) "r"
    ⟨some 101, some [60, 60, 60], none, false⟩).1

/- ===================== Concrete fixtures ================================ -/

/-- A registry with two connected robots: robot1 at 10.0.0.1:5000 (primary for
10.0.0.1) and robot2 at 10.0.0.2:6000 (primary for 10.0.0.2). -/
def mgr2 : AliasManager :=
  { ip_port_to_alias := [("10.0.0.1:5000", "robot1"), ("10.0.0.2:6000", "robot2")],
    alias_to_ip_port := [("robot1", "10.0.0.1:5000"), ("robot2", "10.0.0.2:6000")],
    ip_to_alias := [("10.0.0.1", "robot1"), ("10.0.0.2", "robot2")],
    alias_to_ip := [("robot1", "10.0.0.1"), ("robot2", "10.0.0.2")],
    next_robot_number := 3 }

/-- The ConnectionManager TCP table for mgr2: both robots connected. -/
def tcpKeys2 : List String := ["10.0.0.1:5000", "10.0.0.2:6000"]

/-- The registration-shaped robot frame on which transform_robot_message
raises: type registration, capabilities present, a truthy id, no robot_id,
and a data member that is a bare number. -/
def cexRegistrationDict : JDict :=
  [("type", .str "registration"), ("capabilities", .arr []),
   ("id", .str "x"), ("data", .num 5)]

/- ======================================================================= -/
/- Theorems                                                                -/
/- ======================================================================= -/

/-- Looking a key up after deleting it finds nothing. -/
theorem dget_derase {K V : Type} [BEq K] (d : List (K × V)) (k : K) :
    dget (derase d k) k = none := by
  induction d with
  | nil => rfl
  | cons p rest ih =>
    by_cases h : p.1 == k
    · simp only [derase, List.filter, h]
      exact ih
    · have h' : (p.1 == k) = false := by simpa using h
      simp only [derase, List.filter, h', Bool.not_false, dget, List.find?, h']
      exact ih

/-- A dict misses a key iff no entry carries it. -/
theorem hasKey_eq_false_iff {K V : Type} [BEq K] [LawfulBEq K] (d : List (K × V)) (k : K) :
    hasKey d k = false ↔ ∀ p ∈ d, p.1 ≠ k := by
  simp [hasKey, List.find?_isSome]

/-- dget misses exactly when hasKey is false. -/
theorem dget_none_iff {K V : Type} [BEq K] (d : List (K × V)) (k : K) :
    dget d k = none ↔ hasKey d k = false := by
  unfold dget hasKey
  cases List.find? (fun p => p.1 == k) d <;> simp

/-- A successful lookup implies key membership. -/
theorem hasKey_of_dget {K V : Type} [BEq K] (d : List (K × V)) (k : K) (v : V)
    (h : dget d k = some v) : hasKey d k = true := by
  unfold dget at h
  unfold hasKey
  cases hf : List.find? (fun p => p.1 == k) d with
  | none => rw [hf] at h; simp at h
  | some q => rfl

/-- Assigning an absent key appends its entry. -/
theorem dinsert_absent {K V : Type} [BEq K] (d : List (K × V)) (k : K) (v : V)
    (h : hasKey d k = false) :
    dinsert d k v = d ++ [(k, v)] := by
  unfold dinsert
  unfold hasKey at h
  rw [h]
  simp

/-- Lookup of a freshly appended entry. -/
theorem dget_append_self {K V : Type} [BEq K] [LawfulBEq K] (d : List (K × V)) (k : K) (v : V)
    (h : hasKey d k = false) :
    dget (d ++ [(k, v)]) k = some v := by
  rw [hasKey_eq_false_iff] at h
  induction d with
  | nil => simp [dget, List.find?]
  | cons p rest ih =>
    have hp : (p.1 == k) = false := by simpa using h p (by simp)
    simp only [List.cons_append, dget, List.find?, hp]
    exact ih (fun q hq => h q (by simp [hq]))

/-- Replacing the entry of a key that does not occur is the identity. -/
theorem mapReplace_id {K V : Type} [BEq K] [LawfulBEq K] (d : List (K × V)) (k : K) (v : V)
    (h : ∀ p ∈ d, p.1 ≠ k) :
    d.map (fun p => if p.1 == k then (k, v) else p) = d := by
  induction d with
  | nil => rfl
  | cons p rest ih =>
    have hp : (p.1 == k) = false := by simpa using h p (by simp)
    simp only [List.map_cons, hp, Bool.false_eq_true, if_false]
    rw [ih (fun q hq => h q (by simp [hq]))]

/-- Lookup after an in-place replacement of a present key. -/
theorem mapReplace_dget {K V : Type} [BEq K] [LawfulBEq K] (d : List (K × V)) (k : K) (v : V) :
    hasKey d k = true →
    dget (d.map (fun p => if p.1 == k then (k, v) else p)) k = some v := by
  induction d with
  | nil => intro h; simp [hasKey] at h
  | cons p rest ih =>
    intro h
    cases hp : p.1 == k with
    | true =>
      simp only [List.map_cons, hp, if_true]
      simp [dget, List.find?]
    | false =>
      simp only [List.map_cons, hp, Bool.false_eq_true, if_false]
      have hrest : hasKey rest k = true := by
        unfold hasKey at h ⊢
        simpa [List.find?, hp] using h
      simp only [dget, List.find?, hp]
      exact ih hrest

/-- Replacing a key's entry by the value it already holds is the identity on a
duplicate-free dict. -/
theorem mapReplace_self {K V : Type} [BEq K] [LawfulBEq K] (d : List (K × V)) (k : K) (v : V)
    (hnd : (d.map Prod.fst).Nodup) (h : dget d k = some v) :
    d.map (fun p => if p.1 == k then (k, v) else p) = d := by
  induction d with
  | nil => rfl
  | cons p rest ih =>
    rw [List.map_cons, List.nodup_cons] at hnd
    cases hp : p.1 == k with
    | true =>
      have hpk : p.1 = k := by simpa using hp
      have hpv : p.2 = v := by
        have : some p.2 = some v := by
          simpa [dget, List.find?, hp] using h
        exact Option.some.inj this
      have hrest_ne : ∀ q ∈ rest, q.1 ≠ k := by
        intro q hq hqk
        apply hnd.1
        rw [← hpk] at hqk
        exact hqk ▸ List.mem_map_of_mem Prod.fst hq
      simp only [List.map_cons, hp, if_true]
      rw [mapReplace_id rest k v hrest_ne]
      have : p = (k, v) := by
        cases p with
        | mk a b =>
          simp only at hpk hpv
          rw [hpk, hpv]
      rw [← this]
    | false =>
      have hrest : dget rest k = some v := by
        simpa [dget, List.find?, hp] using h
      simp only [List.map_cons, hp, Bool.false_eq_true, if_false]
      rw [ih hnd.2 hrest]

/-- Lookup after assignment finds the assigned value. -/
theorem dget_dinsert_self {K V : Type} [BEq K] [LawfulBEq K] (d : List (K × V)) (k : K) (v : V) :
    dget (dinsert d k v) k = some v := by
  by_cases h : hasKey d k = true
  · have e1 : dinsert d k v = d.map (fun p => if p.1 == k then (k, v) else p) := by
      unfold dinsert
      unfold hasKey at h
      rw [h]
      simp
    rw [e1]
    exact mapReplace_dget d k v h
  · have h' : hasKey d k = false := by simpa using h
    rw [dinsert_absent d k v h']
    exact dget_append_self d k v h'

/-- Two assignments to one key collapse to the second. -/
theorem dinsert_dinsert_same {K V : Type} [BEq K] [LawfulBEq K] (d : List (K × V)) (k : K)
    (v w : V) :
    dinsert (dinsert d k v) k w = dinsert d k w := by
  by_cases h : hasKey d k = true
  · have e1 : dinsert d k v = d.map (fun p => if p.1 == k then (k, v) else p) := by
      unfold dinsert
      unfold hasKey at h
      rw [h]
      simp
    have e2 : dinsert d k w = d.map (fun p => if p.1 == k then (k, w) else p) := by
      unfold dinsert
      unfold hasKey at h
      rw [h]
      simp
    have hk2 : hasKey (d.map (fun p => if p.1 == k then (k, v) else p)) k = true := by
      apply hasKey_of_dget _ _ v
      exact mapReplace_dget d k v h
    have e3 : dinsert (d.map (fun p => if p.1 == k then (k, v) else p)) k w =
        (d.map (fun p => if p.1 == k then (k, v) else p)).map
          (fun p => if p.1 == k then (k, w) else p) := by
      unfold dinsert
      unfold hasKey at hk2
      rw [hk2]
      simp
    rw [e1, e3, e2, List.map_map]
    apply List.map_congr_left
    intro p _
    cases hp : p.1 == k <;> simp [hp, Function.comp]
  · have h' : hasKey d k = false := by simpa using h
    rw [dinsert_absent d k v h']
    have hk2 : hasKey (d ++ [(k, v)]) k = true := by
      apply hasKey_of_dget _ _ v
      exact dget_append_self d k v h'
    have e3 : dinsert (d ++ [(k, v)]) k w =
        (d ++ [(k, v)]).map (fun p => if p.1 == k then (k, w) else p) := by
      unfold dinsert
      unfold hasKey at hk2
      rw [hk2]
      simp
    rw [e3, List.map_append]
    rw [hasKey_eq_false_iff] at h'
    rw [mapReplace_id d k w h']
    rw [dinsert_absent d k w (by rw [hasKey_eq_false_iff]; exact h')]
    simp

/-- Reassigning the value a key already holds is the identity. -/
theorem dinsert_id {K V : Type} [BEq K] [LawfulBEq K] (d : List (K × V)) (k : K) (v : V)
    (hnd : (d.map Prod.fst).Nodup) (h : dget d k = some v) :
    dinsert d k v = d := by
  have hk := hasKey_of_dget d k v h
  unfold dinsert
  unfold hasKey at hk
  rw [hk]
  simp only [if_true]
  exact mapReplace_self d k v hnd h

/-- Deleting a freshly appended entry restores the dict. -/
theorem derase_append_self {K V : Type} [BEq K] [LawfulBEq K] (d : List (K × V)) (k : K) (v : V)
    (h : hasKey d k = false) :
    derase (d ++ [(k, v)]) k = d := by
  rw [hasKey_eq_false_iff] at h
  unfold derase
  rw [List.filter_append]
  have e1 : d.filter (fun p => !(p.1 == k)) = d := by
    apply List.filter_eq_self.mpr
    intro p hp
    simpa using h p hp
  rw [e1]
  simp

/-- Overwriting a freshly appended entry rewrites it in place. -/
theorem dinsert_present_append {K V : Type} [BEq K] [LawfulBEq K] (d : List (K × V)) (k : K)
    (v w : V) (h : hasKey d k = false) :
    dinsert (d ++ [(k, v)]) k w = d ++ [(k, w)] := by
  have hk2 : hasKey (d ++ [(k, v)]) k = true :=
    hasKey_of_dget _ _ v (dget_append_self d k v h)
  unfold dinsert
  unfold hasKey at hk2
  rw [hk2]
  simp only [if_true, List.map_append]
  rw [hasKey_eq_false_iff] at h
  rw [mapReplace_id d k w h]
  simp

/-- A successful lookup exhibits the entry. -/
theorem mem_of_dget {K V : Type} [BEq K] [LawfulBEq K] (d : List (K × V)) (k : K) (v : V)
    (h : dget d k = some v) : (k, v) ∈ d := by
  unfold dget at h
  cases hf : List.find? (fun p => p.1 == k) d with
  | none => rw [hf] at h; simp at h
  | some q =>
    rw [hf] at h
    have hq := List.mem_of_find?_eq_some hf
    have hqk : q.1 = k := by
      have := List.find?_some hf
      simpa using this
    have hqv : q.2 = v := by simpa using h
    have : q = (k, v) := by
      cases q with
      | mk a b => simp only at hqk hqv; rw [hqk, hqv]
    rwa [← this]

/-- Every entry of an assigned dict is the assigned entry or an old one. -/
theorem mem_dinsert {K V : Type} [BEq K] (d : List (K × V)) (k : K) (v : V) (q : K × V)
    (hq : q ∈ dinsert d k v) : q.2 = v ∨ q ∈ d := by
  unfold dinsert at hq
  split_ifs at hq with hf
  · obtain ⟨p, hp, he⟩ := List.mem_map.mp hq
    by_cases hpk : p.1 == k
    · left
      rw [← he]
      simp [hpk]
    · right
      rw [← he]
      simpa [hpk] using hp
  · rcases List.mem_append.mp hq with h1 | h1
    · right; exact h1
    · left
      simp only [List.mem_singleton] at h1
      rw [h1]

/-- hasKey is membership in the key list. -/
theorem hasKey_iff_mem {K V : Type} [BEq K] [LawfulBEq K] (d : List (K × V)) (k : K) :
    hasKey d k = true ↔ k ∈ d.map Prod.fst := by
  simp only [hasKey, List.find?_isSome, List.mem_map]
  constructor
  · rintro ⟨p, hp, he⟩
    exact ⟨p, hp, by simpa using he⟩
  · rintro ⟨p, hp, he⟩
    exact ⟨p, hp, by simpa using he⟩

/-- An assigned key is present. -/
theorem hasKey_dinsert_self {K V : Type} [BEq K] [LawfulBEq K] (d : List (K × V)) (k : K)
    (v : V) : hasKey (dinsert d k v) k = true := by
  apply hasKey_of_dget _ _ v
  exact dget_dinsert_self d k v

/-- Assigning a present key preserves the key list. -/
theorem keys_dinsert_present {K V : Type} [BEq K] [LawfulBEq K] (d : List (K × V)) (k : K)
    (v : V) (h : hasKey d k = true) :
    (dinsert d k v).map Prod.fst = d.map Prod.fst := by
  unfold dinsert
  unfold hasKey at h
  rw [h]
  simp only [if_true, List.map_map]
  apply List.map_congr_left
  intro p _
  by_cases hp : (p.1 == k) = true
  · have : p.1 = k := by simpa using hp
    simp [hp, Function.comp, this]
  · simp [hp, Function.comp]

/-- Assigning an absent key appends it to the key list. -/
theorem keys_dinsert_absent {K V : Type} [BEq K] [LawfulBEq K] (d : List (K × V)) (k : K)
    (v : V) (h : hasKey d k = false) :
    (dinsert d k v).map Prod.fst = d.map Prod.fst ++ [k] := by
  rw [dinsert_absent d k v h]
  simp

/-- Assignment preserves the presence of other keys. -/
theorem hasKey_dinsert_of {K V : Type} [BEq K] [LawfulBEq K] (d : List (K × V)) (k : K) (v : V)
    (k' : K) (h : hasKey d k' = true) : hasKey (dinsert d k v) k' = true := by
  rw [hasKey_iff_mem] at h ⊢
  by_cases hk : hasKey d k = true
  · rwa [keys_dinsert_present d k v hk]
  · rw [keys_dinsert_absent d k v (by simpa using hk)]
    exact List.mem_append_left _ h

/-- Assignment does not disturb the lookup of other keys. -/
theorem dget_dinsert_ne {K V : Type} [BEq K] [LawfulBEq K] (d : List (K × V)) (k : K) (v : V)
    (k' : K) (h : (k' == k) = false) : dget (dinsert d k v) k' = dget d k' := by
  by_cases hk : hasKey d k = true
  · unfold dinsert
    unfold hasKey at hk
    rw [hk]
    simp only [if_true]
    induction d with
    | nil => rfl
    | cons p rest ih =>
      by_cases hp : (p.1 == k) = true
      · have hpk : p.1 = k := by simpa using hp
        have h1 : (k == k') = false := by
          cases hkk : k == k' with
          | false => rfl
          | true =>
            have : k = k' := by simpa using hkk
            rw [this] at h
            simp at h
        have h2 : (p.1 == k') = false := by
          rw [hpk]
          exact h1
        simp only [List.map_cons, hp, if_true, dget, List.find?, h1, h2]
        by_cases hr : (List.find? (fun q => q.1 == k) rest).isSome = true
        · exact ih hr
        · have : rest.map (fun q => if q.1 == k then (k, v) else q) = rest := by
            apply mapReplace_id
            intro q hq hqk
            apply hr
            rw [List.find?_isSome]
            exact ⟨q, hq, by simpa using hqk⟩
          rw [this]
      · have hp' : (p.1 == k) = false := by simpa using hp
        simp only [List.map_cons, hp', Bool.false_eq_true, if_false, dget, List.find?]
        cases hpk' : (p.1 == k') with
        | true => rfl
        | false =>
          by_cases hr : (List.find? (fun q => q.1 == k) rest).isSome = true
          · simpa [dget] using ih hr
          · have : rest.map (fun q => if q.1 == k then (k, v) else q) = rest := by
              apply mapReplace_id
              intro q hq hqk
              apply hr
              rw [List.find?_isSome]
              exact ⟨q, hq, by simpa using hqk⟩
            rw [this]
  · rw [dinsert_absent d k v (by simpa using hk)]
    clear hk
    induction d with
    | nil =>
      simp only [List.nil_append, dget, List.find?]
      rw [show ((k, v).1 == k') = false from by
        cases hkk : k == k' with
        | false => rfl
        | true =>
          have : k = k' := by simpa using hkk
          rw [this] at h; simp at h]
    | cons p rest ih =>
      simp only [List.cons_append, dget, List.find?]
      cases hpk' : (p.1 == k') with
      | true => rfl
      | false => simpa [dget] using ih

/-- C2: the claim is right and the code is wrong: TrajectoryCalculator defines
neither max_points nor get_trajectory, and Python evaluates the default
argument of payload.get("limit", self.trajectory_calculator.max_points)
eagerly, so every request_trajectory command — whatever the target and whether
or not a limit is supplied — raises AttributeError and is answered with the
generic Server-error envelope instead of a trajectory_data snapshot. -/
theorem c2_request_trajectory_always_server_error (m : AliasManager) (hasLimit : Bool)
    (target_ip target_alias : Option String) :
    handle_request_trajectory m hasLimit target_ip target_alias =
      TrajReply.serverError
        "Server error: AttributeError: TrajectoryCalculator has no attribute max_points" := by
  rfl

/-- C3: the loader splits each line on commas and requires exactly four
fields, so the documented colon form Motor1:0.5,0.1,0.01 (three comma fields)
is skipped with a warning and motor 1 is never loaded, while the comma form
2,0.5,0.1,0.01 does load; save_pid_config_to_file writes exactly the skipped
colon form. -/
theorem c3_pid_loader_colon_form_skipped :
    load_pid_config_from_file ["# comment", "Motor1:0.5,0.1,0.01", "2,0.5,0.1,0.01"] =
      [((2 : Int), ⟨1/2, 1/10, 1/100⟩)] := by
  simp [load_pid_config_from_file, loadPidLine, pyStrip, pyStripChars, pySplit, splitChar,
    pyStartsWith, pyReplace, replaceAux, pyInt?, pyDigits?, pyFloat?, pyFloatNonneg?, dinsert,
    List.foldl]
  norm_num

/-- C1 counterexample: with robot1 and robot2 both connected, a send_to_robot
command supplying robot_ip 10.0.0.1 (robot1) together with robot_alias robot2
is relayed to robot1's writer (unique key 10.0.0.1:5000), not to the robot
designated by robot_alias (10.0.0.2:6000), so the claim that alias wins is
false. -/
theorem c1_counterexample :
    dget mgr2.alias_to_ip_port "robot2" = some "10.0.0.2:6000" ∧
    send_to_robot_relay mgr2 tcpKeys2 (some "10.0.0.1") (some "robot2") =
      some "10.0.0.1:5000" ∧
    ("10.0.0.1:5000" : String) ≠ "10.0.0.2:6000" := by
  refine ⟨by decide, by decide, by decide⟩

/-- C1 (amended): resolution prefers robot_ip over robot_alias: whenever the
supplied robot_ip resolves through the primary-alias index to a connected
robot's unique key, the command is relayed to that robot's writer, regardless
of what robot_alias designates. -/
theorem c1_ip_wins (m : AliasManager) (tcpKeys : List String)
    (ip : String) (target_alias : Option String) (a k : String)
    (h1 : dget m.ip_to_alias ip = some a)
    (h2 : dget m.alias_to_ip_port a = some k)
    (h3 : k ∈ tcpKeys) :
    send_to_robot_relay m tcpKeys (some ip) target_alias = some k := by
  simp [send_to_robot_relay, resolve_send_to_robot_target, h1, h2, h3]

/-- Witness for c1_ip_wins at the two-robot registry. -/
theorem c1_ip_wins_witness :
    dget mgr2.ip_to_alias "10.0.0.1" = some "robot1" ∧
    dget mgr2.alias_to_ip_port "robot1" = some "10.0.0.1:5000" ∧
    ("10.0.0.1:5000" : String) ∈ tcpKeys2 ∧
    send_to_robot_relay mgr2 tcpKeys2 (some "10.0.0.1") (some "robot2") =
      some "10.0.0.1:5000" :=
  ⟨by decide, by decide, by decide,
   c1_ip_wins mgr2 tcpKeys2 "10.0.0.1" (some "robot2") "robot1" "10.0.0.1:5000"
     (by decide) (by decide) (by decide)⟩

/-- A disarmed OTA server hands out no firmware bytes over any sequence of
accepts, and stays disarmed. -/
theorem runOtaAccepts_disarmed (files : List (String × Nat))
    (accepts : List (String × OtaTransfer)) :
    runOtaAccepts ⟨none, none⟩ files accepts = 0 := by
  induction accepts generalizing files with
  | nil => rfl
  | cons a rest ih =>
    obtain ⟨peer, tr⟩ := a
    simpa [runOtaAccepts, handle_ota_robot_connection] using ih files

/-- C4: one firmware transfer per arming event: an OTA accept from the armed
target IP — whether the stream completes or fails with an I/O error — clears
the arm, and every subsequent OTA accept, from any IP and with any outcome,
receives zero firmware bytes until a later upload_firmware_end installs a new
arm. -/
theorem c4_ota_single_shot (st : OtaArmState) (files : List (String × Nat))
    (peer p : String) (tr : OtaTransfer)
    (hp : st.firmware_to_send_path = some p)
    (ht : st.ota_server_robot_ip_target = some peer) :
    (handle_ota_robot_connection st files peer tr).2.1 = ⟨none, none⟩ ∧
    ∀ accepts, runOtaAccepts (handle_ota_robot_connection st files peer tr).2.1
        (handle_ota_robot_connection st files peer tr).2.2 accepts = 0 := by
  have harm : (handle_ota_robot_connection st files peer tr).2.1 = ⟨none, none⟩ := by
    cases tr <;> simp [handle_ota_robot_connection, hp, ht]
  exact ⟨harm, fun accepts => by rw [harm]; exact runOtaAccepts_disarmed _ _⟩

/-- Witness for c4_ota_single_shot: a 4096-byte firmware armed for 10.0.0.5 is
consumed by the first accept; the two following accepts (same IP, then another
IP) receive nothing. -/
theorem c4_ota_single_shot_witness :
    (⟨some "fw.bin", some "10.0.0.5"⟩ : OtaArmState).firmware_to_send_path = some "fw.bin" ∧
    (⟨some "fw.bin", some "10.0.0.5"⟩ : OtaArmState).ota_server_robot_ip_target =
      some "10.0.0.5" ∧
    (handle_ota_robot_connection ⟨some "fw.bin", some "10.0.0.5"⟩ [("fw.bin", 4096)]
        "10.0.0.5" .ok).2.1 = ⟨none, none⟩ ∧
    runOtaAccepts
      (handle_ota_robot_connection ⟨some "fw.bin", some "10.0.0.5"⟩ [("fw.bin", 4096)]
        "10.0.0.5" .ok).2.1
      (handle_ota_robot_connection ⟨some "fw.bin", some "10.0.0.5"⟩ [("fw.bin", 4096)]
        "10.0.0.5" .ok).2.2
      [("10.0.0.5", .ok), ("10.0.0.6", .ok)] = 0 :=
  ⟨rfl, rfl,
   (c4_ota_single_shot ⟨some "fw.bin", some "10.0.0.5"⟩ [("fw.bin", 4096)] "10.0.0.5"
      "fw.bin" .ok rfl rfl).1,
   (c4_ota_single_shot ⟨some "fw.bin", some "10.0.0.5"⟩ [("fw.bin", 4096)] "10.0.0.5"
      "fw.bin" .ok rfl rfl).2 [("10.0.0.5", .ok), ("10.0.0.6", .ok)]⟩

/-- C8: for an in-progress upload, finalization returns the staged path iff
the received byte count equals the declared filesize; in both outcomes the
file handle is closed and the upload entry removed; and on a mismatch the
bridge replies error stage upload_finish and the OTA arm — including any
previously armed firmware — is left untouched. -/
theorem c8_upload_end (uploads : List (String × UploadInfo)) (arm : OtaArmState)
    (robot_ip : String) (inf : UploadInfo) (fileExists : Bool)
    (h : dget uploads robot_ip = some inf) :
    ((fw_finish uploads robot_ip).1 = some inf.path ↔ inf.received = inf.filesize) ∧
    (fw_finish uploads robot_ip).2.2 = true ∧
    dget (fw_finish uploads robot_ip).2.1 robot_ip = none ∧
    (inf.received ≠ inf.filesize →
      (handle_upload_firmware_end uploads arm robot_ip fileExists).2.2 =
        UploadEndReply.errorUploadFinish robot_ip ∧
      (handle_upload_firmware_end uploads arm robot_ip fileExists).2.1 = arm) := by
  by_cases hrf : inf.received = inf.filesize
  · refine ⟨?_, ?_, ?_, fun hne => absurd hrf hne⟩
    · simp [fw_finish, h, hrf]
    · simp [fw_finish, h, hrf]
    · simp [fw_finish, h, hrf, dget_derase]
  · refine ⟨?_, ?_, ?_, fun _ => ?_⟩
    · constructor
      · intro hsome
        exfalso
        simp [fw_finish, h, hrf] at hsome
      · intro he; exact absurd he hrf
    · simp [fw_finish, h, hrf]
    · simp [fw_finish, h, hrf, dget_derase]
    · constructor <;> simp [handle_upload_firmware_end, fw_finish, h, hrf]

/-- Witness for c8_upload_end: an upload for 10.0.0.5 that received 100 of a
declared 4096 bytes, with another firmware already armed for 10.0.0.9. -/
theorem c8_upload_end_witness :
    dget [("10.0.0.5", (⟨"tmp/fw.bin", 4096, 100⟩ : UploadInfo))] "10.0.0.5" =
      some ⟨"tmp/fw.bin", 4096, 100⟩ ∧
    ((⟨"tmp/fw.bin", 4096, 100⟩ : UploadInfo).received ≠
      (⟨"tmp/fw.bin", 4096, 100⟩ : UploadInfo).filesize) ∧
    ((fw_finish [("10.0.0.5", ⟨"tmp/fw.bin", 4096, 100⟩)] "10.0.0.5").1 =
        some "tmp/fw.bin" ↔ (100 : Int) = 4096) ∧
    (handle_upload_firmware_end [("10.0.0.5", ⟨"tmp/fw.bin", 4096, 100⟩)]
        ⟨some "old.bin", some "10.0.0.9"⟩ "10.0.0.5" true).2.1 =
      ⟨some "old.bin", some "10.0.0.9"⟩ :=
  ⟨by decide, by decide,
   (c8_upload_end [("10.0.0.5", ⟨"tmp/fw.bin", 4096, 100⟩)]
      ⟨some "old.bin", some "10.0.0.9"⟩ "10.0.0.5" ⟨"tmp/fw.bin", 4096, 100⟩ true
      (by decide)).1,
   ((c8_upload_end [("10.0.0.5", ⟨"tmp/fw.bin", 4096, 100⟩)]
      ⟨some "old.bin", some "10.0.0.9"⟩ "10.0.0.5" ⟨"tmp/fw.bin", 4096, 100⟩ true
      (by decide)).2.2.2 (by decide)).2⟩

/- ===================== C6: broadcast fan-out ============================ -/

/-- An entry for a different client never contributes a send to c. -/
theorem count_entry_ne (connected : List String) (R T c c' : String) (m : ClientSubs)
    (h : c' ≠ c) :
    (clientEntrySends connected R T c' m).count c = 0 := by
  unfold clientEntrySends
  by_cases hcc : c' ∈ connected <;>
    cases h1 : memSub m R T <;> cases h2 : memSub m GLOBAL_SUBSCRIPTION_KEY T <;>
      simp [hcc, h1, h2, List.count_cons, h]

/-- A connected client's own entry sends exactly once iff one pattern matches. -/
theorem count_entry_self (connected : List String) (R T c : String) (m : ClientSubs)
    (hc : c ∈ connected) :
    (clientEntrySends connected R T c m).count c =
      (if memSub m R T || memSub m GLOBAL_SUBSCRIPTION_KEY T then 1 else 0) := by
  unfold clientEntrySends
  rw [if_pos hc]
  cases h1 : memSub m R T <;> cases h2 : memSub m GLOBAL_SUBSCRIPTION_KEY T <;>
    simp [h1, h2, List.count_cons]

/-- Entries of clients other than c contribute no sends to c. -/
theorem count_flatten_absent (t : SubMap) (connected : List String) (R T c : String)
    (h : c ∉ t.map Prod.fst) :
    ((t.map (fun ce => clientEntrySends connected R T ce.1 ce.2)).flatten).count c = 0 := by
  induction t with
  | nil => rfl
  | cons p rest ih =>
    rw [List.map_cons, List.mem_cons] at h
    push_neg at h
    simp only [List.map_cons, List.flatten_cons, List.count_append]
    rw [count_entry_ne _ _ _ _ _ _ (Ne.symm h.1), ih h.2]

/-- C6: for every normalized frame from robot alias R with type T and every
connected UI client c, the router delivers the frame to c exactly once when T
is in subs[c][R] or in subs[c][GLOBAL] — at most one send even when both the
specific and the GLOBAL pattern match — and delivers nothing to c otherwise. -/
theorem c6_broadcast_exactly_once (subs : SubMap) (connected : List String)
    (R T c : String)
    (hc : c ∈ connected)
    (hnd : (subs.map Prod.fst).Nodup) :
    (broadcast_to_subscribers subs connected R T R).count c =
      (if memSubClient subs c R T || memSubClient subs c GLOBAL_SUBSCRIPTION_KEY T
       then 1 else 0) := by
  unfold broadcast_to_subscribers
  rw [if_neg (by simp)]
  induction subs with
  | nil => rfl
  | cons p rest ih =>
    rw [List.map_cons, List.nodup_cons] at hnd
    simp only [List.map_cons, List.flatten_cons, List.count_append]
    by_cases hpc : p.1 = c
    · subst hpc
      rw [count_entry_self _ _ _ _ _ hc, count_flatten_absent _ _ _ _ _ hnd.1]
      have hm : memSubClient (p :: rest) p.1 R T = memSub p.2 R T := by
        simp [memSubClient, dget, List.find?]
      have hg : memSubClient (p :: rest) p.1 GLOBAL_SUBSCRIPTION_KEY T =
          memSub p.2 GLOBAL_SUBSCRIPTION_KEY T := by
        simp [memSubClient, dget, List.find?]
      rw [hm, hg, Nat.add_zero]
    · rw [count_entry_ne _ _ _ _ _ _ hpc, ih hnd.2, Nat.zero_add]
      have hm : ∀ key, memSubClient (p :: rest) c key T = memSubClient rest c key T := by
        intro key
        simp [memSubClient, dget, List.find?, show (p.1 == c) = false from by
          simp [hpc]]
      rw [hm, hm]

/-- Witness for c6_broadcast_exactly_once: three clients, one subscribed
specifically, one globally, one to another type; the frame reaches c1 once. -/
theorem c6_broadcast_exactly_once_witness :
    ("c1" : String) ∈ ["c1", "c2", "c3"] ∧
    (([("c1", [("robot1", ["encoder_data"])]),
       ("c2", [(GLOBAL_SUBSCRIPTION_KEY, ["encoder_data"])]),
       ("c3", [("robot1", ["imu_data"])])] : SubMap).map Prod.fst).Nodup ∧
    (broadcast_to_subscribers
        [("c1", [("robot1", ["encoder_data"])]),
         ("c2", [(GLOBAL_SUBSCRIPTION_KEY, ["encoder_data"])]),
         ("c3", [("robot1", ["imu_data"])])]
        ["c1", "c2", "c3"] "robot1" "encoder_data" "robot1").count "c1" =
      (if memSubClient
          [("c1", [("robot1", ["encoder_data"])]),
           ("c2", [(GLOBAL_SUBSCRIPTION_KEY, ["encoder_data"])]),
           ("c3", [("robot1", ["imu_data"])])] "c1" "robot1" "encoder_data" ||
        memSubClient
          [("c1", [("robot1", ["encoder_data"])]),
           ("c2", [(GLOBAL_SUBSCRIPTION_KEY, ["encoder_data"])]),
           ("c3", [("robot1", ["imu_data"])])] "c1" GLOBAL_SUBSCRIPTION_KEY "encoder_data"
       then 1 else 0) :=
  ⟨by decide, by decide,
   c6_broadcast_exactly_once
     [("c1", [("robot1", ["encoder_data"])]),
      ("c2", [(GLOBAL_SUBSCRIPTION_KEY, ["encoder_data"])]),
      ("c3", [("robot1", ["imu_data"])])]
     ["c1", "c2", "c3"] "robot1" "encoder_data" "c1" (by decide) (by decide)⟩

/- ===================== C7: subscribe / unsubscribe ====================== -/

/-- Adding an absent element appends it. -/
theorem setAdd_not_mem (ts : List String) (T : String) (h : T ∉ ts) :
    setAdd ts T = ts ++ [T] := by
  unfold setAdd
  rw [if_neg h]

/-- Discarding an absent element is the identity. -/
theorem setDiscard_not_mem (ts : List String) (T : String) (h : T ∉ ts) :
    setDiscard ts T = ts := by
  unfold setDiscard
  apply List.filter_eq_self.mpr
  intro x hx
  simp only [decide_eq_true_eq]
  exact fun he => h (he ▸ hx)

/-- Discarding a freshly appended element restores the set. -/
theorem setDiscard_append (ts : List String) (T : String) (h : T ∉ ts) :
    setDiscard (ts ++ [T]) T = ts := by
  unfold setDiscard
  rw [List.filter_append]
  have e1 : ts.filter (fun x => decide (x ≠ T)) = ts := setDiscard_not_mem ts T h
  rw [e1]
  simp

/-- subscribe for a client with no map entry installs {A: {T}}. -/
theorem subscribeMut_client_absent (s : SubMap) (c A T : String) (hc : hasKey s c = false) :
    subscribeMut s c A T = s ++ [(c, [(A, [T])])] := by
  unfold subscribeMut
  rw [hc]
  simp only [Bool.false_eq_true, if_false]
  rw [dinsert_absent s c [] hc, dget_append_self s c [] hc]
  simp only [Option.getD_some, hasKey, List.find?, Option.isSome_none, Bool.false_eq_true,
    if_false]
  have e1 : dinsert ([] : ClientSubs) A [] = [(A, [])] := rfl
  rw [e1]
  have e2 : dget [(A, ([] : List String))] A = some [] := by
    simp [dget, List.find?]
  rw [e2]
  simp only [Option.getD_some]
  have e3 : setAdd [] T = [T] := rfl
  rw [e3]
  have e4 : dinsert [(A, ([] : List String))] A [T] = [(A, [T])] := by
    simp [dinsert, List.find?]
  rw [e4]
  exact dinsert_present_append s c [] [(A, [T])] hc

/-- subscribe for a client that is not yet subscribed under alias A appends
the alias entry with {T}. -/
theorem subscribeMut_alias_absent (s : SubMap) (c A T : String) (m : ClientSubs)
    (hdg : dget s c = some m) (hA : hasKey m A = false) :
    subscribeMut s c A T = dinsert s c (m ++ [(A, [T])]) := by
  have hc : hasKey s c = true := hasKey_of_dget s c m hdg
  unfold subscribeMut
  rw [hc]
  simp only [if_true]
  rw [hdg]
  simp only [Option.getD_some]
  rw [hA]
  simp only [Bool.false_eq_true, if_false]
  rw [dinsert_absent m A [] hA, dget_append_self m A [] hA]
  simp only [Option.getD_some]
  have e3 : setAdd [] T = [T] := rfl
  rw [e3]
  rw [dinsert_present_append m A [] [T] hA]

/-- subscribe for an alias already subscribed (without T) appends T. -/
theorem subscribeMut_alias_present (s : SubMap) (c A T : String) (m : ClientSubs)
    (ts : List String)
    (hdg : dget s c = some m) (hA : dget m A = some ts) (hT : T ∉ ts) :
    subscribeMut s c A T = dinsert s c (dinsert m A (ts ++ [T])) := by
  have hc : hasKey s c = true := hasKey_of_dget s c m hdg
  have hAk : hasKey m A = true := hasKey_of_dget m A ts hA
  unfold subscribeMut
  rw [hc]
  simp only [if_true]
  rw [hdg]
  simp only [Option.getD_some]
  rw [hAk]
  simp only [if_true]
  rw [hA]
  simp only [Option.getD_some]
  rw [setAdd_not_mem ts T hT]

/-- C7 counterexample: the claim fails when the client is already subscribed
to (robot1, encoder_data): subscribe is a set no-op, and the following
unsubscribe then removes the pre-existing subscription, emptying the map —
the prior state (which is canonical and reachable) is not restored. -/
theorem c7_counterexample :
    canonicalSubs [("c1", [("robot1", ["encoder_data"])])] ∧
    unsubscribe_cmd
        (subscribe_cmd mgr2 [("c1", [("robot1", ["encoder_data"])])]
          "c1" "robot1" "encoder_data")
        "c1" "robot1" "encoder_data" = [] ∧
    ([] : SubMap) ≠ [("c1", [("robot1", ["encoder_data"])])] := by
  refine ⟨by decide, by decide, by decide⟩

/-- C7 (amended): subscribe(c, A, T) followed by unsubscribe(c, A, T)
restores the subscription map exactly, provided A is a registered alias, the
prior map is canonical (unique keys, no empty client or alias entries), and c
was not already subscribed to (A, T). -/
theorem c7_subscribe_unsubscribe_roundtrip (mgr : AliasManager) (s : SubMap)
    (c A T k : String)
    (hreg : dget mgr.alias_to_ip_port A = some k)
    (hcanon : canonicalSubs s)
    (hT : memSubClient s c A T = false) :
    unsubscribe_cmd (subscribe_cmd mgr s c A T) c A T = s := by
  obtain ⟨hnd, hent⟩ := hcanon
  unfold subscribe_cmd
  rw [hreg]
  dsimp only
  cases hdg : dget s c with
  | none =>
    have hc : hasKey s c = false := (dget_none_iff s c).mp hdg
    rw [subscribeMut_client_absent s c A T hc]
    unfold unsubscribe_cmd
    rw [dget_append_self s c _ hc]
    dsimp only
    have e1 : dget [(A, [T])] A = some [T] := by simp [dget, List.find?]
    rw [e1]
    dsimp only
    have e2 : setDiscard [T] T = [] := by simp [setDiscard]
    rw [e2]
    simp only [if_true]
    have e3 : derase [(A, [T])] A = [] := by simp [derase, List.filter]
    rw [e3]
    simp only [if_true]
    exact derase_append_self s c [(A, [T])] hc
  | some m =>
    have hmem : (c, m) ∈ s := mem_of_dget s c m hdg
    obtain ⟨hm_ne, hm_nd, hm_sets⟩ := hent (c, m) hmem
    cases hAm : dget m A with
    | none =>
      have hA : hasKey m A = false := (dget_none_iff m A).mp hAm
      rw [subscribeMut_alias_absent s c A T m hdg hA]
      unfold unsubscribe_cmd
      rw [dget_dinsert_self s c (m ++ [(A, [T])])]
      dsimp only
      rw [dget_append_self m A [T] hA]
      dsimp only
      have e2 : setDiscard [T] T = [] := by simp [setDiscard]
      rw [e2]
      simp only [if_true]
      rw [derase_append_self m A [T] hA]
      rw [if_neg hm_ne]
      rw [dinsert_dinsert_same s c (m ++ [(A, [T])]) m]
      exact dinsert_id s c m hnd hdg
    | some ts =>
      have hTts : T ∉ ts := by
        unfold memSubClient at hT
        rw [hdg] at hT
        dsimp only at hT
        unfold memSub at hT
        rw [hAm] at hT
        dsimp only at hT
        simpa using hT
      have hts_ne : ts ≠ [] := hm_sets (A, ts) (mem_of_dget m A ts hAm)
      rw [subscribeMut_alias_present s c A T m ts hdg hAm hTts]
      unfold unsubscribe_cmd
      rw [dget_dinsert_self s c (dinsert m A (ts ++ [T]))]
      dsimp only
      rw [dget_dinsert_self m A (ts ++ [T])]
      dsimp only
      rw [setDiscard_append ts T hTts]
      rw [if_neg hts_ne]
      rw [dinsert_dinsert_same m A (ts ++ [T]) ts]
      rw [dinsert_id m A ts hm_nd hAm]
      rw [if_neg hm_ne]
      rw [dinsert_dinsert_same s c (dinsert m A (ts ++ [T])) m]
      exact dinsert_id s c m hnd hdg

/-- Witness for c7_subscribe_unsubscribe_roundtrip: a fresh client subscribes
to (robot1, encoder_data) and unsubscribes again while another client's
subscription sits in the map. -/
theorem c7_subscribe_unsubscribe_roundtrip_witness :
    dget mgr2.alias_to_ip_port "robot1" = some "10.0.0.1:5000" ∧
    canonicalSubs [("c2", [("robot2", ["imu_data"])])] ∧
    memSubClient [("c2", [("robot2", ["imu_data"])])] "c1" "robot1" "encoder_data" = false ∧
    unsubscribe_cmd
        (subscribe_cmd mgr2 [("c2", [("robot2", ["imu_data"])])] "c1" "robot1" "encoder_data")
        "c1" "robot1" "encoder_data" = [("c2", [("robot2", ["imu_data"])])] :=
  ⟨by decide, by decide, by decide,
   c7_subscribe_unsubscribe_roundtrip mgr2 [("c2", [("robot2", ["imu_data"])])]
     "c1" "robot1" "encoder_data" "10.0.0.1:5000" (by decide) (by decide) (by decide)⟩

/- ===================== C9: path history cap ============================= -/

set_option maxRecDepth 16000

/-- One _try_calculate_trajectory call keeps the path within the cap. -/
theorem try_calculate_trajectory_path_le (pi : ℚ) (cosF sinF : ℚ → ℚ) (now : ℚ)
    (st : RobotTrajState) (h : st.path_history.length ≤ 1000) :
    (try_calculate_trajectory pi cosF sinF now st).1.path_history.length ≤ 1000 := by
  rcases himu : st.latest_imu_data with _ | imu
  · simp only [try_calculate_trajectory, himu]
    split_ifs <;> exact h
  · rcases henc : st.latest_encoder_data with _ | enc
    · simp only [try_calculate_trajectory, himu, henc]
      split_ifs <;> exact h
    · rcases hlast : st.last_timestamp_encoder with _ | last_ts <;>
        simp only [try_calculate_trajectory, himu, henc, hlast] <;>
        split_ifs <;>
        first
          | exact h
          | (simp only [List.length_append, List.length_singleton, List.length_drop,
                List.isEmpty_iff, MAX_TRAJECTORY_POINTS_DEFAULT] at *
             omega)
          | (simp_all
             try omega)

/-- One calculator update keeps every robot's path within the cap. -/
theorem applyTrajOp_path_le (pi : ℚ) (cosF sinF : ℚ → ℚ) (m : TrajMap) (op : TrajOp)
    (h : ∀ p ∈ m, p.2.path_history.length ≤ 1000) :
    ∀ p ∈ applyTrajOp pi cosF sinF m op, p.2.path_history.length ≤ 1000 := by
  have hens : ∀ p ∈ ensure_robot_data m (match op with | .imu k _ _ => k | .enc k _ _ => k),
      p.2.path_history.length ≤ 1000 := by
    intro p hp
    unfold ensure_robot_data at hp
    split_ifs at hp
    · exact h p hp
    · rcases mem_dinsert _ _ _ _ hp with he | hm
      · rw [he]; simp [initRobotTraj]
      · exact h p hm
  have hget : ∀ (d : TrajMap), (∀ p ∈ d, p.2.path_history.length ≤ 1000) →
      ∀ (k : String), ((dget d k).getD initRobotTraj).path_history.length ≤ 1000 := by
    intro d hd k
    cases hf : dget d k with
    | none => simp [initRobotTraj]
    | some st =>
      simp only [Option.getD_some]
      exact hd (k, st) (mem_of_dget d k st hf)
  cases op with
  | imu k now d =>
    intro p hp
    unfold applyTrajOp update_imu_data at hp
    rcases mem_dinsert _ _ _ _ hp with he | hm
    · rw [he]
      apply try_calculate_trajectory_path_le
      simp only
      split <;> exact hget _ hens k
    · exact hens p hm
  | enc k now d =>
    intro p hp
    unfold applyTrajOp update_encoder_data at hp
    rcases mem_dinsert _ _ _ _ hp with he | hm
    · rw [he]
      apply try_calculate_trajectory_path_le
      exact hget _ hens k
    · exact hens p hm

/-- Every robot state reachable from a fresh calculator has a capped path. -/
theorem runTrajOps_path_le (pi : ℚ) (cosF sinF : ℚ → ℚ) (ops : List TrajOp) :
    ∀ p ∈ runTrajOps pi cosF sinF ops, p.2.path_history.length ≤ 1000 := by
  unfold runTrajOps
  have : ∀ (m : TrajMap), (∀ p ∈ m, p.2.path_history.length ≤ 1000) →
      ∀ p ∈ ops.foldl (applyTrajOp pi cosF sinF) m, p.2.path_history.length ≤ 1000 := by
    induction ops with
    | nil => intro m hm; simpa using hm
    | cons op rest ih =>
      intro m hm
      simp only [List.foldl_cons]
      exact ih _ (applyTrajOp_path_le pi cosF sinF m op hm)
  exact this [] (by simp)

/-- An integration step taken from a full path drops from the head. -/
theorem try_calculate_trajectory_evicts_head (pi : ℚ) (cosF sinF : ℚ → ℚ) (now : ℚ)
    (st : RobotTrajState) (imu : ImuMsg) (enc : EncMsg)
    (rpms : List ℚ) (ti te t0 t1 : ℚ)
    (himu : st.latest_imu_data = some imu) (himut : imu.truthy = true)
    (henc : st.latest_encoder_data = some enc) (henct : enc.truthy = true)
    (hti : st.last_imu_timestamp = some ti) (hti0 : ti ≠ 0) (hti5 : now - ti ≤ 5)
    (hte : st.last_encoder_timestamp = some te) (hte0 : te ≠ 0) (hte5 : now - te ≤ 5)
    (hdata : enc.data = some rpms) (hlen : rpms.length = 3)
    (hts : enc.timestamp = some t1)
    (h0 : st.last_timestamp_encoder = some t0) (hdt : t0 < t1)
    (hfull : st.path_history.length = 1000) :
    ∃ pt, (try_calculate_trajectory pi cosF sinF now st).1.path_history =
      st.path_history.drop 1 ++ [pt] := by
  have hi5 : ¬(now - ti > 5) := not_lt.mpr hti5
  have he5 : ¬(now - te > 5) := not_lt.mpr hte5
  have hdt' : ¬(t1 - t0 ≤ 0) := by
    intro hx
    exact absurd (by linarith : t1 ≤ t0) (not_le.mpr hdt)
  simp only [try_calculate_trajectory, himu, henc, himut, henct, hti, hte, hdata, hlen, hts, h0,
    dataAge, ageExceeds, Bool.not_true, Bool.or_self, Bool.false_eq_true, if_false,
    Option.getD_some, if_neg hti0, if_neg hte0, decide_eq_true_eq, hi5, he5, hdt',
    MAX_TRAJECTORY_POINTS_DEFAULT, List.length_append, List.length_singleton, hfull]
  simp only [List.drop_append_of_le_length
    (show (1 : Nat) ≤ st.path_history.length by omega)]
  norm_num

/-- C9: over every sequence of update_imu_data / update_encoder_data calls the
pose path history never exceeds 1000 entries, and when an integration step
runs with the path already full, the oldest sample is discarded from the head
(FIFO) as the new pose is appended. -/
theorem c9_path_cap_fifo :
    (∀ (pi : ℚ) (cosF sinF : ℚ → ℚ) (ops : List TrajOp) (k : String) (st : RobotTrajState),
        dget (runTrajOps pi cosF sinF ops) k = some st →
        st.path_history.length ≤ 1000) ∧
    (∀ (pi : ℚ) (cosF sinF : ℚ → ℚ) (now : ℚ) (st : RobotTrajState) (imu : ImuMsg)
        (enc : EncMsg) (rpms : List ℚ) (ti te t0 t1 : ℚ),
        st.latest_imu_data = some imu → imu.truthy = true →
        st.latest_encoder_data = some enc → enc.truthy = true →
        st.last_imu_timestamp = some ti → ti ≠ 0 → now - ti ≤ 5 →
        st.last_encoder_timestamp = some te → te ≠ 0 → now - te ≤ 5 →
        enc.data = some rpms → rpms.length = 3 →
        enc.timestamp = some t1 →
        st.last_timestamp_encoder = some t0 → t0 < t1 →
        st.path_history.length = 1000 →
        ∃ pt, (try_calculate_trajectory pi cosF sinF now st).1.path_history =
          st.path_history.drop 1 ++ [pt]) := by
  constructor
  · intro pi cosF sinF ops k st h
    exact runTrajOps_path_le pi cosF sinF ops (k, st) (mem_of_dget _ _ _ h)
  · intro pi cosF sinF now st imu enc rpms ti te t0 t1 h1 h2 h3 h4 h5 h6 h7 h8 h9 h10 h11
      h12 h13 h14 h15 h16
    exact try_calculate_trajectory_evicts_head pi cosF sinF now st imu enc rpms ti te t0 t1
      h1 h2 h3 h4 h5 h6 h7 h8 h9 h10 h11 h12 h13 h14 h15 h16

/-- Witness for c9_path_cap_fifo: the eviction branch applied to a concrete
full-path state (1000 samples, fresh data, advancing encoder timestamp). -/
theorem c9_path_cap_fifo_witness :
    ((⟨0, 0, 0, some 1, List.replicate 1000 ⟨0, 0, 0⟩, some ⟨some 0, none, false⟩,
        some ⟨some 2, some [0, 0, 0], none, false⟩, some 10,
        some 10⟩ : RobotTrajState).latest_imu_data = some ⟨some 0, none, false⟩) ∧
    ((⟨some 0, none, false⟩ : ImuMsg).truthy = true) ∧
    ((⟨some 2, some [0, 0, 0], none, false⟩ : EncMsg).truthy = true) ∧
    ((11 : ℚ) - 10 ≤ 5) ∧ ((10 : ℚ) ≠ 0) ∧ ((1 : ℚ) < 2) ∧
    ((List.replicate 1000 (⟨0, 0, 0⟩ : TrajPoint)).length = 1000) ∧
    (∃ pt, (try_calculate_trajectory 0 (fun _ => 0) (fun _ => 0) 11
        ⟨0, 0, 0, some 1, List.replicate 1000 ⟨0, 0, 0⟩, some ⟨some 0, none, false⟩,
         some ⟨some 2, some [0, 0, 0], none, false⟩, some 10, some 10⟩).1.path_history =
      (List.replicate 1000 (⟨0, 0, 0⟩ : TrajPoint)).drop 1 ++ [pt]) :=
  ⟨rfl, rfl, rfl, by norm_num, by norm_num, by norm_num, by simp,
   c9_path_cap_fifo.2 0 (fun _ => 0) (fun _ => 0) 11
     ⟨0, 0, 0, some 1, List.replicate 1000 ⟨0, 0, 0⟩, some ⟨some 0, none, false⟩,
      some ⟨some 2, some [0, 0, 0], none, false⟩, some 10, some 10⟩
     ⟨some 0, none, false⟩ ⟨some 2, some [0, 0, 0], none, false⟩ [0, 0, 0] 10 10 1 2
     rfl rfl rfl rfl rfl (by norm_num) (by norm_num) rfl (by norm_num) (by norm_num)
     rfl (by norm_num) rfl rfl (by norm_num) (by simp)⟩

/- ===================== C5: pose seed scenario =========================== -/

/-- C5: from fresh pose state, IMU yaw 0 then encoder [60,60,60] at t=100 then
encoder [60,60,60] at t=101 (all arrivals fresh) puts the pose exactly at
(0.0325·2π, 0, 0) — so within 1e-6 — and the first encoder frame only seeds
last_encoder_ts without moving (x, y).  math.cos and math.sin enter only
through cos 0 = 1 and sin 0 = 0. -/
theorem c5_pose_seed (pi : ℚ) (cosF sinF : ℚ → ℚ)
    (hcos : cosF 0 = 1) (hsin : sinF 0 = 0) :
    (dget (poseSeedAfterFirstEncoder pi cosF sinF) "r").isSome = true ∧
    ((dget (poseSeedAfterFirstEncoder pi cosF sinF) "r").getD initRobotTraj).x = 0 ∧
    ((dget (poseSeedAfterFirstEncoder pi cosF sinF) "r").getD initRobotTraj).y = 0 ∧
    ((dget (poseSeedAfterFirstEncoder pi cosF sinF) "r").getD
        initRobotTraj).last_timestamp_encoder = some 100 ∧
    ((dget (poseSeedAfterFirstEncoder pi cosF sinF) "r").getD
        initRobotTraj).path_history.length = 1 ∧
    (dget (poseSeedScenario pi cosF sinF) "r").isSome = true ∧
    ((dget (poseSeedScenario pi cosF sinF) "r").getD initRobotTraj).x = 13/400 * (2 * pi) ∧
    ((dget (poseSeedScenario pi cosF sinF) "r").getD initRobotTraj).y = 0 ∧
    ((dget (poseSeedScenario pi cosF sinF) "r").getD initRobotTraj).theta = 0 ∧
    |((dget (poseSeedScenario pi cosF sinF) "r").getD initRobotTraj).x -
        13/400 * (2 * pi)| < 1/1000000 := by
  norm_num [poseSeedScenario, poseSeedAfterFirstEncoder, update_imu_data,
    update_encoder_data, ensure_robot_data, try_calculate_trajectory,
    dataAge, ageExceeds, imuHeading, rpm_to_omega, WHEEL_RADIUS_DEFAULT,
    MAX_TRAJECTORY_POINTS_DEFAULT, dget, dinsert, hasKey, List.find?, initRobotTraj,
    ImuMsg.truthy, EncMsg.truthy, hcos, hsin]
  ring_nf
  norm_num

/-- Witness for c5_pose_seed at the constant trigonometric functions. -/
theorem c5_pose_seed_witness :
    ((fun _ => (1 : ℚ)) (0 : ℚ) = 1) ∧ ((fun _ => (0 : ℚ)) (0 : ℚ) = 0) ∧
    ((dget (poseSeedAfterFirstEncoder 3 (fun _ => 1) (fun _ => 0)) "r").isSome = true ∧
     ((dget (poseSeedAfterFirstEncoder 3 (fun _ => 1) (fun _ => 0)) "r").getD
        initRobotTraj).x = 0 ∧
     ((dget (poseSeedAfterFirstEncoder 3 (fun _ => 1) (fun _ => 0)) "r").getD
        initRobotTraj).y = 0 ∧
     ((dget (poseSeedAfterFirstEncoder 3 (fun _ => 1) (fun _ => 0)) "r").getD
        initRobotTraj).last_timestamp_encoder = some 100 ∧
     ((dget (poseSeedAfterFirstEncoder 3 (fun _ => 1) (fun _ => 0)) "r").getD
        initRobotTraj).path_history.length = 1 ∧
     (dget (poseSeedScenario 3 (fun _ => 1) (fun _ => 0)) "r").isSome = true ∧
     ((dget (poseSeedScenario 3 (fun _ => 1) (fun _ => 0)) "r").getD
        initRobotTraj).x = 13/400 * (2 * 3) ∧
     ((dget (poseSeedScenario 3 (fun _ => 1) (fun _ => 0)) "r").getD
        initRobotTraj).y = 0 ∧
     ((dget (poseSeedScenario 3 (fun _ => 1) (fun _ => 0)) "r").getD
        initRobotTraj).theta = 0 ∧
     |((dget (poseSeedScenario 3 (fun _ => 1) (fun _ => 0)) "r").getD
        initRobotTraj).x - 13/400 * (2 * 3)| < 1/1000000) :=
  ⟨rfl, rfl, c5_pose_seed 3 (fun _ => 1) (fun _ => 0) rfl rfl⟩

/- ===================== C10: transform_robot_message ===================== -/

/-- Every list is a prefix of itself extended. -/
theorem isPrefixOf_append_self (l r : List Char) : l.isPrefixOf (l ++ r) = true := by
  induction l with
  | nil => simp [List.isPrefixOf]
  | cons c t ih => simp [List.isPrefixOf, ih]

/-- A concatenation starts with its first part. -/
theorem pyStartsWith_append (pre rest : String) :
    pyStartsWith (pre ++ rest) pre = true := by
  unfold pyStartsWith
  rw [String.data_append]
  exact isPrefixOf_append_self pre.data rest.data

/-- Key presence after an assignment. -/
theorem hasKey_dinsert {K V : Type} [BEq K] [LawfulBEq K] (d : List (K × V)) (k : K) (v : V)
    (k' : K) :
    hasKey (dinsert d k v) k' = (k' == k || hasKey d k') := by
  by_cases he : (k' == k) = true
  · have : k' = k := by simpa using he
    subst this
    simp [hasKey_dinsert_self, he]
  · have he' : (k' == k) = false := by simpa using he
    rw [he']
    simp only [Bool.false_or]
    have hne := dget_dinsert_ne d k v k' he'
    unfold dget at hne
    unfold hasKey
    cases h1 : List.find? (fun p => p.1 == k') (dinsert d k v) <;>
      cases h2 : List.find? (fun p => p.1 == k') d <;> simp_all

/-- C10 counterexample: transform_robot_message is not total: on the
registration-shaped dict whose data member is the bare number 5 it raises
TypeError (Python evaluates `"robot_id" not in message_dict.get("data", ...)`
on a non-container), so no envelope is returned for this input. -/
theorem c10_counterexample :
    transform_robot_message 0 cexRegistrationDict =
      Except.error "TypeError: argument is not iterable" := by
  rfl

/-- C10 (amended): transform_robot_message returns, without mutating its
input, an envelope containing robot_ip, robot_alias, timestamp and type —
with type one of imu_data, encoder_data, log, registration,
generic_<original type> or unknown_json_data — for every input dict except
the registration-shaped dicts with a truthy id, no robot_id, and a
non-container data member, on which it raises TypeError. -/
theorem c10_transform_total (now : ℚ) (m : JDict)
    (hsafe : registrationRaises m = false) :
    ∃ env, transform_robot_message now m = .ok env ∧
      hasKey env "robot_ip" = true ∧ hasKey env "robot_alias" = true ∧
      hasKey env "timestamp" = true ∧
      ∃ t, dget env "type" = some (.str t) ∧
        (t = "imu_data" ∨ t = "encoder_data" ∨ t = "log" ∨ t = "registration" ∨
         t = "unknown_json_data" ∨ pyStartsWith t "generic_" = true) := by
  by_cases hb1 : (isStrVal (dget m "type") "bno055" && isObjMember (dget m "data")) = true
  · simp only [transform_robot_message, hb1, if_true]
    refine ⟨_, rfl, ?_, ?_, ?_, "imu_data", ?_, by simp⟩ <;>
      simp [hasKey_dinsert, dget_dinsert_ne, dget_dinsert_self, hasKey, List.find?]
  · have hb1' : (isStrVal (dget m "type") "bno055" && isObjMember (dget m "data")) = false := by
      simpa using hb1
    by_cases hb2 : (isStrVal (dget m "type") "encoder" && isArrMember (dget m "data")) = true
    · simp only [transform_robot_message, hb1', Bool.false_eq_true, if_false, hb2, if_true]
      by_cases hid : pyTruthyOpt (dget m "id") = true
      · simp only [hid, if_true]
        refine ⟨_, rfl, ?_, ?_, ?_, "encoder_data", ?_, by simp⟩ <;>
          simp [hasKey_dinsert, dget_dinsert_ne, dget_dinsert_self, hasKey, List.find?]
      · simp only [Bool.not_eq_true] at hid
        simp only [hid, Bool.false_eq_true, if_false]
        refine ⟨_, rfl, ?_, ?_, ?_, "encoder_data", ?_, by simp⟩ <;>
          simp [hasKey_dinsert, dget_dinsert_ne, dget_dinsert_self, hasKey, List.find?]
    · have hb2' : (isStrVal (dget m "type") "encoder" && isArrMember (dget m "data")) =
          false := by simpa using hb2
      by_cases hb3 : isStrVal (dget m "type") "log" = true
      · simp only [transform_robot_message, hb1', hb2', Bool.false_eq_true, if_false, hb3,
          if_true]
        by_cases hid : pyTruthyOpt (dget m "id") = true
        · simp only [hid, if_true]
          refine ⟨_, rfl, ?_, ?_, ?_, "log", ?_, by simp⟩ <;>
            simp [hasKey_dinsert, dget_dinsert_ne, dget_dinsert_self, hasKey, List.find?]
        · simp only [Bool.not_eq_true] at hid
          simp only [hid, Bool.false_eq_true, if_false]
          refine ⟨_, rfl, ?_, ?_, ?_, "log", ?_, by simp⟩ <;>
            simp [hasKey_dinsert, dget_dinsert_ne, dget_dinsert_self, hasKey, List.find?]
      · have hb3' : isStrVal (dget m "type") "log" = false := by simpa using hb3
        by_cases hb4 : (isStrVal (dget m "type") "registration" &&
            hasKey m "capabilities") = true
        · simp only [transform_robot_message, hb1', hb2', hb3', Bool.false_eq_true, if_false,
            hb4, if_true]
          by_cases hrid : hasKey m "robot_id" = true
          · simp only [hrid, if_true]
            refine ⟨_, rfl, ?_, ?_, ?_, "registration", ?_, by simp⟩ <;>
              simp [hasKey_dinsert, dget_dinsert_ne, dget_dinsert_self, hasKey, List.find?]
          · have hrid' : hasKey m "robot_id" = false := by simpa using hrid
            simp only [hrid', Bool.false_eq_true, if_false]
            by_cases hid : pyTruthyOpt (dget m "id") = true
            · simp only [hid, if_true]
              have hb4s : isStrVal (dget m "type") "registration" = true ∧
                  hasKey m "capabilities" = true := by simpa using hb4
              cases hdata : (dget m "data").getD (.obj []) with
              | null =>
                exfalso
                unfold registrationRaises at hsafe
                rw [hdata] at hsafe
                simp [hb4s.1, hb4s.2, hrid', hid] at hsafe
              | bool b =>
                exfalso
                unfold registrationRaises at hsafe
                rw [hdata] at hsafe
                simp [hb4s.1, hb4s.2, hrid', hid] at hsafe
              | num q =>
                exfalso
                unfold registrationRaises at hsafe
                rw [hdata] at hsafe
                simp [hb4s.1, hb4s.2, hrid', hid] at hsafe
              | str sv =>
                simp only [pyContains]
                split_ifs <;>
                  (refine ⟨_, rfl, ?_, ?_, ?_, "registration", ?_, by simp⟩ <;>
                    simp [hasKey_dinsert, dget_dinsert_ne, dget_dinsert_self, hasKey,
                      List.find?])
              | arr xs =>
                simp only [pyContains]
                split_ifs <;>
                  (refine ⟨_, rfl, ?_, ?_, ?_, "registration", ?_, by simp⟩ <;>
                    simp [hasKey_dinsert, dget_dinsert_ne, dget_dinsert_self, hasKey,
                      List.find?])
              | obj fs =>
                simp only [pyContains]
                split_ifs <;>
                  (refine ⟨_, rfl, ?_, ?_, ?_, "registration", ?_, by simp⟩ <;>
                    simp [hasKey_dinsert, dget_dinsert_ne, dget_dinsert_self, hasKey,
                      List.find?])
            · simp only [Bool.not_eq_true] at hid
              simp only [hid, Bool.false_eq_true, if_false]
              refine ⟨_, rfl, ?_, ?_, ?_, "registration", ?_, by simp⟩ <;>
                simp [hasKey_dinsert, dget_dinsert_ne, dget_dinsert_self, hasKey, List.find?]
        · have hb4' : (isStrVal (dget m "type") "registration" &&
              hasKey m "capabilities") = false := by simpa using hb4
          by_cases hb5 : pyTruthyOpt (dget m "type") = true
          · simp only [transform_robot_message, hb1', hb2', hb3', hb4', Bool.false_eq_true,
              if_false, hb5, if_true]
            refine ⟨_, rfl, ?_, ?_, ?_,
              "generic_" ++ pyStr ((dget m "type").getD .null), ?_, ?_⟩
            · simp [hasKey_dinsert, dget_dinsert_ne, dget_dinsert_self, hasKey, List.find?]
            · simp [hasKey_dinsert, dget_dinsert_ne, dget_dinsert_self, hasKey, List.find?]
            · simp [hasKey_dinsert, dget_dinsert_ne, dget_dinsert_self, hasKey, List.find?]
            · simp [hasKey_dinsert, dget_dinsert_ne, dget_dinsert_self, hasKey, List.find?]
            · right; right; right; right; right
              exact pyStartsWith_append "generic_" (pyStr ((dget m "type").getD .null))
          · have hb5' : pyTruthyOpt (dget m "type") = false := by simpa using hb5
            simp only [transform_robot_message, hb1', hb2', hb3', hb4', hb5',
              Bool.false_eq_true, if_false]
            refine ⟨_, rfl, ?_, ?_, ?_, "unknown_json_data", ?_, by simp⟩ <;>
              simp [hasKey_dinsert, dget_dinsert_ne, dget_dinsert_self, hasKey, List.find?]

/-- Witness for c10_transform_total on a plain log frame. -/
theorem c10_transform_total_witness :
    registrationRaises [("type", .str "log"), ("message", .str "hi")] = false ∧
    (∃ env, transform_robot_message 0 [("type", .str "log"), ("message", .str "hi")] =
        .ok env ∧
      hasKey env "robot_ip" = true ∧ hasKey env "robot_alias" = true ∧
      hasKey env "timestamp" = true ∧
      ∃ t, dget env "type" = some (.str t) ∧
        (t = "imu_data" ∨ t = "encoder_data" ∨ t = "log" ∨ t = "registration" ∨
         t = "unknown_json_data" ∨ pyStartsWith t "generic_" = true)) :=
  ⟨by decide, c10_transform_total 0 [("type", .str "log"), ("message", .str "hi")] (by decide)⟩

end DirectBridge
